import Mathlib

/-!
Verification of `src/aci_query_script.py` (ACI API query bridge for a
Terraform external data source).

The script is embedded shallowly:

* `Json` models the values handled by Python's `json` module, with numbers
  restricted to integers (no floating-point value occurs in any contract of
  this program, and none of the verified properties concerns floats).
* `Json.serialize` models `json.dumps` (default separators `", "` and `": "`;
  the `ensure_ascii` transcription of non-ASCII characters is not modelled
  because it does not change the parsed value).
* `Json.parse` models `json.loads` on the fragment of JSON used here
  (no floats, no `NaN`/`Infinity`); duplicate object keys are resolved the
  way Python `dict` construction resolves them (last value wins, first
  position kept).
* The dynamic-typing behaviour of the Python operations the script applies
  to untrusted JSON values (`in`, subscription, `len`, `.get`, `.rstrip`,
  `.startswith`, `int(...)`, truthiness, `str(...)`) is modelled by total
  functions into `Except PyErr`.
* The two HTTP round trips are modelled by an oracle (`NetOracle`) giving the
  outcome of each stage; `mainRun` mirrors `main` and returns the emitted
  envelope, the exit code and a record of every network call attempted.
-/

/-- JSON values as handled by Python's `json` module, with numbers restricted
to integers. -/
inductive Json where
  | null
  | bool (b : Bool)
  | int (n : Int)
  | str (s : String)
  | arr (elems : List Json)
  | obj (members : List (String × Json))

namespace Json

mutual

/-- Number of nodes of a JSON value; used as a fuel bound for the parser. -/
def nodeCount : Json → Nat
  | .null => 1
  | .bool _ => 1
  | .int _ => 1
  | .str _ => 1
  | .arr xs => 1 + nodeCountList xs
  | .obj ms => 1 + nodeCountMembers ms
termination_by structural j => j

/-- Total node count of a list of JSON values. -/
def nodeCountList : List Json → Nat
  | [] => 0
  | x :: xs => nodeCount x + nodeCountList xs
termination_by structural l => l

/-- Total node count of the values of an object member list. -/
def nodeCountMembers : List (String × Json) → Nat
  | [] => 0
  | (_, v) :: ms => nodeCount v + nodeCountMembers ms
termination_by structural l => l

end

end Json

/-- Fuel-bounded kernel of `natToChars`; the fuel dominates the recursion
depth as soon as it exceeds the number, since the number shrinks by a factor
of ten at every step. -/
def natToCharsAux : Nat → Nat → List Char
  | 0, _ => []
  | f + 1, n =>
    if n < 10 then [Nat.digitChar n]
    else natToCharsAux f (n / 10) ++ [Nat.digitChar (n % 10)]

/-- Decimal digits of a natural number, most significant first; models the
digit sequence produced by Python's `str(...)` on a non-negative integer. -/
def natToChars (n : Nat) : List Char := natToCharsAux (n + 1) n

/-- Decimal rendering of an integer; models Python's `str(...)` on `int`. -/
def intToChars (n : Int) : List Char :=
  if n < 0 then '-' :: natToChars (-n).toNat else natToChars n.toNat

/-- String form of `intToChars`. -/
def intToString (n : Int) : String := ⟨intToChars n⟩

/-- Escape of one character inside a JSON string, as `json.dumps` emits it
(mandatory escapes only; see the module comment). -/
def escapeChar (c : Char) : List Char :=
  if c = '"' then ['\\', '"']
  else if c = '\\' then ['\\', '\\']
  else if c = '\n' then ['\\', 'n']
  else if c = '\r' then ['\\', 'r']
  else if c = '\t' then ['\\', 't']
  else if c.toNat = 8 then ['\\', 'b']
  else if c.toNat = 12 then ['\\', 'f']
  else if c.toNat < 32 then
    ['\\', 'u', '0', '0', Nat.digitChar (c.toNat / 16), Nat.digitChar (c.toNat % 16)]
  else [c]

/-- Escape of a whole JSON string body. -/
def escapeChars : List Char → List Char
  | [] => []
  | c :: cs => escapeChar c ++ escapeChars cs

namespace Json

mutual

/-- Serialization of a JSON value, modelling `json.dumps` with its default
item separator `", "` and key separator `": "`. -/
def serChars : Json → List Char
  | .null => "null".data
  | .bool true => "true".data
  | .bool false => "false".data
  | .int n => intToChars n
  | .str s => '"' :: (escapeChars s.data ++ ['"'])
  | .arr xs => '[' :: (serElems xs ++ [']'])
  | .obj ms => '{' :: (serMembers ms ++ ['}'])
termination_by structural j => j

/-- Serialization of array elements, separated by `", "`. -/
def serElems : List Json → List Char
  | [] => []
  | [x] => serChars x
  | x :: y :: rest => serChars x ++ ',' :: ' ' :: serElems (y :: rest)
termination_by structural l => l

/-- Serialization of object members, separated by `", "`, keys rendered as
JSON strings followed by `": "`. -/
def serMembers : List (String × Json) → List Char
  | [] => []
  | [(k, v)] => '"' :: (escapeChars k.data ++ ['"', ':', ' ']) ++ serChars v
  | (k, v) :: m :: rest =>
      '"' :: (escapeChars k.data ++ ['"', ':', ' ']) ++ serChars v
        ++ ',' :: ' ' :: serMembers (m :: rest)
termination_by structural l => l

end

/-- String form of the serializer; the model of `json.dumps`. -/
def serialize (j : Json) : String := ⟨serChars j⟩

end Json

/-- Decimal digit test, by code point. -/
def isDigitC (c : Char) : Bool := 48 ≤ c.toNat && c.toNat ≤ 57

/-- JSON whitespace accepted by `json.loads`. -/
def isJsonWs (c : Char) : Bool := c = ' ' || c = '\t' || c = '\n' || c = '\r'

/-- Drop leading JSON whitespace. -/
def skipWs (cs : List Char) : List Char := cs.dropWhile isJsonWs

/-- Value of one hexadecimal digit, if any. -/
def hexVal? (c : Char) : Option Nat :=
  if '0' ≤ c ∧ c ≤ '9' then some (c.toNat - 48)
  else if 'a' ≤ c ∧ c ≤ 'f' then some (c.toNat - 87)
  else if 'A' ≤ c ∧ c ≤ 'F' then some (c.toNat - 55)
  else none

/-- Translation of a single-character JSON escape. -/
def unescapeOne (c : Char) : Option Char :=
  if c = '"' then some '"'
  else if c = '\\' then some '\\'
  else if c = '/' then some '/'
  else if c = 'n' then some '\n'
  else if c = 'r' then some '\r'
  else if c = 't' then some '\t'
  else if c = 'b' then some (Char.ofNat 8)
  else if c = 'f' then some (Char.ofNat 12)
  else none

/-- Parser for the body of a JSON string after the opening quote; returns the
decoded characters and the input remaining after the closing quote.
Surrogate escapes are not modelled (the serializer never emits them). -/
def parseStringBodyF : Nat → List Char → Option (List Char × List Char)
  | 0, _ => none
  | _, [] => none
  | f + 1, c :: rest =>
    if c = '"' then some ([], rest)
    else if c = '\\' then
      match rest with
      | 'u' :: h1 :: h2 :: h3 :: h4 :: rest2 =>
        match hexVal? h1, hexVal? h2, hexVal? h3, hexVal? h4 with
        | some a, some b, some c2, some d =>
          let n := ((a * 16 + b) * 16 + c2) * 16 + d
          if 0xD800 ≤ n ∧ n < 0xE000 then none
          else
            match parseStringBodyF f rest2 with
            | some (s, r) => some (Char.ofNat n :: s, r)
            | none => none
        | _, _, _, _ => none
      | e :: rest2 =>
        match unescapeOne e with
        | some c2 =>
          match parseStringBodyF f rest2 with
          | some (s, r) => some (c2 :: s, r)
          | none => none
        | none => none
      | [] => none
    else
      match parseStringBodyF f rest with
      | some (s, r) => some (c :: s, r)
      | none => none

/-- Parser for the body of a JSON string after the opening quote; the fuel of
`parseStringBodyF` dominates the recursion depth as soon as it exceeds the
input length, since every step consumes at least one character. -/
def parseStringBody (cs : List Char) : Option (List Char × List Char) :=
  parseStringBodyF (cs.length + 1) cs

/-- Accumulating decimal-digit parser: consumes the maximal digit run. -/
def parseDigitsAux : Nat → List Char → Nat × List Char
  | acc, [] => (acc, [])
  | acc, c :: cs =>
    if isDigitC c then parseDigitsAux (acc * 10 + (c.toNat - 48)) cs else (acc, c :: cs)

/-- Parser for a non-empty run of decimal digits. -/
def parseNat (cs : List Char) : Option (Nat × List Char) :=
  match cs with
  | c :: _ => if isDigitC c then some (parseDigitsAux 0 cs) else none
  | [] => none

/-- Insertion of a key/value pair into an association list with Python `dict`
semantics: an existing key keeps its position and receives the new value, a
fresh key is appended. -/
def dictInsert (m : List (String × Json)) (k : String) (v : Json) : List (String × Json) :=
  if m.any (fun p => p.1 == k) then
    m.map (fun p => if p.1 == k then (k, v) else p)
  else m ++ [(k, v)]

/-- Python `dict` construction from a member list in document order. -/
def dedupeMembers (raw : List (String × Json)) : List (String × Json) :=
  raw.foldl (fun m kv => dictInsert m kv.1 kv.2) []

mutual

/-- Fuel-bounded JSON value parser modelling `json.loads` on the fragment
described in the module comment; skips leading whitespace. -/
def parseVal : Nat → List Char → Option (Json × List Char)
  | 0, _ => none
  | f + 1, cs =>
    match skipWs cs with
    | [] => none
    | c :: rest =>
      if c = 'n' then
        match rest with
        | 'u' :: 'l' :: 'l' :: r => some (.null, r)
        | _ => none
      else if c = 't' then
        match rest with
        | 'r' :: 'u' :: 'e' :: r => some (.bool true, r)
        | _ => none
      else if c = 'f' then
        match rest with
        | 'a' :: 'l' :: 's' :: 'e' :: r => some (.bool false, r)
        | _ => none
      else if c = '"' then
        match parseStringBody rest with
        | some (s, r) => some (.str ⟨s⟩, r)
        | none => none
      else if c = '-' then
        match parseNat rest with
        | some (n, r) => some (.int (-(n : Int)), r)
        | none => none
      else if isDigitC c then
        match parseNat (c :: rest) with
        | some (n, r) => some (.int (n : Int), r)
        | none => none
      else if c = '[' then
        match skipWs rest with
        | ']' :: r => some (.arr [], r)
        | cs2 =>
          match parseVal f cs2 with
          | some (v, r1) =>
            match parseElemsTail f r1 with
            | some (vs, r2) => some (.arr (v :: vs), r2)
            | none => none
          | none => none
      else if c = '{' then
        match skipWs rest with
        | '}' :: r => some (.obj [], r)
        | '"' :: cs2 =>
          match parseStringBody cs2 with
          | some (k, r1) =>
            match skipWs r1 with
            | ':' :: r2 =>
              match parseVal f r2 with
              | some (v, r3) =>
                match parseMembersTail f r3 with
                | some (ms, r4) => some (.obj (dedupeMembers ((⟨k⟩, v) :: ms)), r4)
                | none => none
              | none => none
            | _ => none
          | none => none
        | _ => none
      else none

/-- Parser for the rest of an array after its first element: either a closing
bracket, or a comma-prefixed element followed recursively by the rest. -/
def parseElemsTail : Nat → List Char → Option (List Json × List Char)
  | 0, _ => none
  | f + 1, cs =>
    match skipWs cs with
    | ']' :: r => some ([], r)
    | ',' :: r =>
      match parseVal f r with
      | some (v, r1) =>
        match parseElemsTail f r1 with
        | some (vs, r2) => some (v :: vs, r2)
        | none => none
      | none => none
    | _ => none

/-- Parser for the rest of an object after its first member. -/
def parseMembersTail : Nat → List Char → Option (List (String × Json) × List Char)
  | 0, _ => none
  | f + 1, cs =>
    match skipWs cs with
    | '}' :: r => some ([], r)
    | ',' :: r =>
      match skipWs r with
      | '"' :: r1 =>
        match parseStringBody r1 with
        | some (k, r2) =>
          match skipWs r2 with
          | ':' :: r3 =>
            match parseVal f r3 with
            | some (v, r4) =>
              match parseMembersTail f r4 with
              | some (ms, r5) => some ((⟨k⟩, v) :: ms, r5)
              | none => none
            | none => none
          | _ => none
        | none => none
      | _ => none
    | _ => none

end

/-- Model of `json.loads`: parse a whole document, requiring only whitespace
after the value. The fuel is bounded by the input length, which the
round-trip theorem shows is sufficient on every serialized value. -/
def Json.parse (s : String) : Option Json :=
  match parseVal (s.data.length + 1) s.data with
  | some (j, rest) => if skipWs rest = [] then some j else none
  | none => none

/-- Check that a list of object keys is duplicate-free. -/
def nodupKeysB : List String → Bool
  | [] => true
  | k :: ks => (!ks.contains k) && nodupKeysB ks

namespace Json

mutual

/-- Well-formedness of a JSON value: object member lists carry no duplicate
key, as is true of every value produced by `Json.parse` (Python `dict`
construction removes duplicates). -/
def wfB : Json → Bool
  | .null => true
  | .bool _ => true
  | .int _ => true
  | .str _ => true
  | .arr xs => wfListB xs
  | .obj ms => nodupKeysB (ms.map Prod.fst) && wfMembersB ms
termination_by structural j => j

/-- Well-formedness of every element of a list of JSON values. -/
def wfListB : List Json → Bool
  | [] => true
  | x :: xs => wfB x && wfListB xs
termination_by structural l => l

/-- Well-formedness of every value of an object member list. -/
def wfMembersB : List (String × Json) → Bool
  | [] => true
  | (_, v) :: ms => wfB v && wfMembersB ms
termination_by structural l => l

end

end Json

/-- Serialization of the elements of an array after its first element; proof
companion of `Json.serElems`. -/
def serTailElems : List Json → List Char
  | [] => []
  | x :: xs => ',' :: ' ' :: (Json.serChars x ++ serTailElems xs)
termination_by structural l => l

/-- Serialization of the members of an object after its first member; proof
companion of `Json.serMembers`. -/
def serTailMembers : List (String × Json) → List Char
  | [] => []
  | (k, v) :: ms =>
      ',' :: ' ' :: '"' :: (escapeChars k.data ++ ['"', ':', ' '])
        ++ Json.serChars v ++ serTailMembers ms
termination_by structural l => l

/-!  Models of the Python operations the script applies to JSON values.
Each returns `Except PyErr` with the exception CPython would raise; the
message texts follow CPython where they matter to the script's output. -/

/-- Python exception raised by an operation on an ill-typed value, carrying
the text `str(e)` would produce. -/
inductive PyErr where
  | typeError (msg : String)
  | attributeError (msg : String)
  | keyError (msg : String)
  | valueError (msg : String)
  | indexError (msg : String)

/-- Text of the exception, as Python's `str(e)`. -/
def PyErr.message : PyErr → String
  | typeError m => m
  | attributeError m => m
  | keyError m => m
  | valueError m => m
  | indexError m => m

/-- Python type name of a JSON value, used in CPython error texts. -/
def pyTypeName : Json → String
  | .null => "NoneType"
  | .bool _ => "bool"
  | .int _ => "int"
  | .str _ => "str"
  | .arr _ => "list"
  | .obj _ => "dict"

/-- Equality test of a JSON value against a Python string, as used by the
membership test on a list. -/
def jsonEqStr (key : String) : Json → Bool
  | .str s => s == key
  | _ => false

/-- Substring test on character lists, for the membership test on a string. -/
def listIsInfix (needle hay : List Char) : Bool :=
  hay.tails.any (fun t => needle.isPrefixOf t)

/-- Python `key in v` for a string `key`; a membership test on dictionaries,
lists and strings, a `TypeError` on other JSON values. -/
def pyIn (key : String) (v : Json) : Except PyErr Bool :=
  match v with
  | .obj m => .ok (m.lookup key).isSome
  | .arr xs => .ok (xs.any (jsonEqStr key))
  | .str s => .ok (listIsInfix key.data s.data)
  | _ => .error (.typeError ("argument of type '" ++ pyTypeName v ++ "' is not iterable"))

/-- Python `v[key]` for a string `key`. -/
def pyGetItem (v : Json) (key : String) : Except PyErr Json :=
  match v with
  | .obj m =>
    match m.lookup key with
    | some x => .ok x
    | none => .error (.keyError ("'" ++ key ++ "'"))
  | .arr _ => .error (.typeError "list indices must be integers or slices, not str")
  | .str _ => .error (.typeError "string indices must be integers")
  | _ => .error (.typeError ("'" ++ pyTypeName v ++ "' object is not subscriptable"))

/-- Python `v[0]`. On a dictionary this is a `KeyError` (JSON keys are
strings, so the integer key `0` is never present); on a string it yields the
first character as a one-character string. -/
def pyIndexZero (v : Json) : Except PyErr Json :=
  match v with
  | .arr (x :: _) => .ok x
  | .arr [] => .error (.indexError "list index out of range")
  | .str s =>
    match s.data with
    | c :: _ => .ok (.str ⟨[c]⟩)
    | [] => .error (.indexError "string index out of range")
  | .obj _ => .error (.keyError "0")
  | _ => .error (.typeError ("'" ++ pyTypeName v ++ "' object is not subscriptable"))

/-- Python `len(v)`. -/
def pyLen (v : Json) : Except PyErr Nat :=
  match v with
  | .str s => .ok s.length
  | .arr xs => .ok xs.length
  | .obj m => .ok m.length
  | _ => .error (.typeError ("object of type '" ++ pyTypeName v ++ "' has no len()"))

/-- Python `v.get(key, deflt)` (and `v.get(key)` with `deflt = null`): a
dictionary method, an `AttributeError` on every other JSON value. -/
def pyGetMethod (v : Json) (key : String) (deflt : Json) : Except PyErr Json :=
  match v with
  | .obj m =>
    .ok (match m.lookup key with
         | some x => x
         | none => deflt)
  | _ => .error (.attributeError ("'" ++ pyTypeName v ++ "' object has no attribute 'get'"))

/-- Python truthiness of a JSON value. -/
def pyTruthy (v : Json) : Bool :=
  match v with
  | .null => false
  | .bool b => b
  | .int n => n != 0
  | .str s => s != ""
  | .arr xs => !xs.isEmpty
  | .obj m => !m.isEmpty

/-- Python `v.rstrip(c)` for a single strip character: a string method, an
`AttributeError` on every other JSON value. -/
def pyRstrip (v : Json) (strip : Char) : Except PyErr String :=
  match v with
  | .str s => .ok ⟨(s.data.reverse.dropWhile (fun c => c = strip)).reverse⟩
  | _ => .error (.attributeError ("'" ++ pyTypeName v ++ "' object has no attribute 'rstrip'"))

/-- Python `v.startswith(pre)`: a string method, an `AttributeError` on every
other JSON value. -/
def pyStartswith (v : Json) (pre : String) : Except PyErr Bool :=
  match v with
  | .str s => .ok (pre.data.isPrefixOf s.data)
  | _ => .error (.attributeError ("'" ++ pyTypeName v ++ "' object has no attribute 'startswith'"))

/-- Python `int(v)` on a JSON value. String conversion is modelled for
optional surrounding spaces, an optional sign and decimal digits (CPython
additionally accepts underscores between digits and unicode digits; no
contract of this program depends on those). -/
def pyInt (v : Json) : Except PyErr Int :=
  match v with
  | .int n => .ok n
  | .bool b => .ok (if b then 1 else 0)
  | .str s =>
    let core := (s.data.dropWhile (fun c => c = ' ')).reverse.dropWhile (fun c => c = ' ') |>.reverse
    let digits :=
      match core with
      | '-' :: ds => ds
      | '+' :: ds => ds
      | ds => ds
    if digits ≠ [] ∧ digits.all isDigitC then
      let n : Int := Int.ofNat (digits.foldl (fun a c => a * 10 + (c.toNat - 48)) 0)
      .ok (match core with
           | '-' :: _ => -n
           | _ => n)
    else .error (.valueError ("invalid literal for int() with base 10: '" ++ s ++ "'"))
  | .null => .error (.typeError "int() argument must be a string, a bytes-like object or a real number, not 'NoneType'")
  | .arr _ => .error (.typeError "int() argument must be a string, a bytes-like object or a real number, not 'list'")
  | .obj _ => .error (.typeError "int() argument must be a string, a bytes-like object or a real number, not 'dict'")

/-- Escaping of one character of a string inside Python's `repr`, given the
chosen quote character. Non-printable transcription of characters above
`0x7f` is not modelled (no contract of this program depends on it). -/
def pyReprEsc (q : Char) : List Char → List Char
  | [] => []
  | c :: cs =>
    (if c = '\\' then ['\\', '\\']
     else if c = q then ['\\', q]
     else if c = '\n' then ['\\', 'n']
     else if c = '\r' then ['\\', 'r']
     else if c = '\t' then ['\\', 't']
     else if c.toNat < 32 ∨ c.toNat = 127 then
       ['\\', 'x', Nat.digitChar (c.toNat / 16), Nat.digitChar (c.toNat % 16)]
     else [c]) ++ pyReprEsc q cs

/-- Python `repr` of a string: single-quoted, switching to double quotes when
the string contains a single quote but no double quote. -/
def pyReprStr (s : String) : String :=
  let q := if s.data.contains '\'' && !(s.data.contains '"') then '"' else '\''
  ⟨q :: (pyReprEsc q s.data ++ [q])⟩

namespace Json

mutual

/-- Python `repr` of a JSON value. -/
def pyRepr : Json → String
  | .null => "None"
  | .bool true => "True"
  | .bool false => "False"
  | .int n => intToString n
  | .str s => pyReprStr s
  | .arr xs => ⟨'[' :: ((pyReprElems xs).data ++ [']'])⟩
  | .obj ms => ⟨'{' :: ((pyReprMembers ms).data ++ ['}'])⟩
termination_by structural j => j

/-- Comma-separated `repr` of list elements. -/
def pyReprElems : List Json → String
  | [] => ""
  | [x] => pyRepr x
  | x :: y :: rest => pyRepr x ++ ", " ++ pyReprElems (y :: rest)
termination_by structural l => l

/-- Comma-separated `repr` of dictionary members. -/
def pyReprMembers : List (String × Json) → String
  | [] => ""
  | [(k, v)] => pyReprStr k ++ ": " ++ pyRepr v
  | (k, v) :: m :: rest => pyReprStr k ++ ": " ++ pyRepr v ++ ", " ++ pyReprMembers (m :: rest)
termination_by structural l => l

end

/-- Python `str` of a JSON value, as used by the script in `str(...)` and in
the cookie f-string: the identity on strings, `repr`-based otherwise. -/
def pyStr : Json → String
  | .str s => s
  | .null => pyRepr .null
  | .bool b => pyRepr (.bool b)
  | .int n => pyRepr (.int n)
  | .arr xs => pyRepr (.arr xs)
  | .obj ms => pyRepr (.obj ms)

end Json

/-!  Model of the network layer. The outcome of each of the two HTTP requests
the script can make is supplied by an oracle. `requests` raises a
`RequestException` for transport failures and (via `raise_for_status`) for
HTTP status codes of 400 and above; `response.json()` raises
`json.JSONDecodeError` on a body that is not valid JSON, which the script's
dedicated `except json.JSONDecodeError` clauses catch. -/

/-- An HTTP response that reached the client: a status code and a body. -/
structure HttpResp where
  status : Nat
  body : String

/-- Outcome of one HTTP request attempt. -/
inductive StageOutcome where
  | netErr (details : String)
  | resp (r : HttpResp)

/-- Outcomes of the two requests the script can make, in order. -/
structure NetOracle where
  login : StageOutcome
  query : StageOutcome

/-- The attributes of a `requests.Session` that the script touches. The
`timeoutAttr` field models the plain attribute assignment
`session.timeout = timeout`; `requests` reads no such attribute, so the
timeout actually applied to a request is only ever its `timeout` keyword
argument. -/
structure Session where
  verify : Bool
  timeoutAttr : Int
  headers : List (String × String)

/-- Record of one network call attempt: the URL, the per-call `timeout`
argument (the only timeout `requests` honours), the query parameters, and
the session attributes in force at call time. -/
structure CallRecord where
  url : String
  timeoutArg : Option Int
  params : Option Json
  jsonBody : Option Json
  sessionTimeoutAttr : Int
  verify : Bool
  headers : List (String × String)

/-- Exception state of the embedded script at the top of `main`. -/
inductive Exc where
  | aci (msg : String)
  | inputJson (details : String)
  | py (e : PyErr)

/-- Placeholder for the position-dependent detail text of
`json.JSONDecodeError`; no contract of this program depends on it. -/
def jsonDecodeDetail : String := "Expecting value: line 1 column 1 (char 0)"

/-- Detail text of the `HTTPError` that `raise_for_status` raises for a
status of 400 and above, modelled from `requests`. -/
def httpErrorDetail (status : Nat) (url : String) : String :=
  intToString status
    ++ (if status < 500 then " Client Error" else " Server Error")
    ++ ": " ++ url

/-- Splits a character list at the first occurrence of "://": the part
before the separator (accumulated reversed in `acc`) and the part after. -/
def splitSchemeAux (acc : List Char) : List Char → Option (List Char × List Char)
  | [] => none
  | ':' :: '/' :: '/' :: rest => some (acc.reverse, rest)
  | c :: rest => splitSchemeAux (c :: acc) rest

/-- Scheme and host part of a URL: everything up to the first slash after
"://". -/
def schemeHost (u : String) : Option String :=
  match splitSchemeAux [] u.data with
  | some (scheme, rest) =>
    some (⟨scheme⟩ ++ "://" ++ ⟨(rest.takeWhile (fun c => c ≠ '/'))⟩)
  | none => none

/-- Model of `urllib.parse.urljoin` restricted to the shapes this script
uses: the second argument always begins with "/", so the result keeps the
scheme and host of the base and replaces its path. A base without a scheme
behaves like `urljoin`'s relative-base case and yields the path alone. -/
def urljoin (base rel : String) : String :=
  match schemeHost base with
  | some sh => sh ++ rel
  | none => rel

/-- Lines 31-38: the login payload. -/
def aaaLoginPayload (username password : Json) : Json :=
  .obj [("aaaUser", .obj [("attributes", .obj [("name", username), ("pwd", password)])])]

/-- Lines 45-47 of `authenticate_aci`: the guard on `imdata` and the nested
token lookup, with Python's short-circuit `and` and `dict.get` defaults.
Returns `some token` when a truthy token was found, `none` when the code
falls through to `raise ACIQueryError("Authentication failed - no token
received")`, and an exception when the response shape makes one of the
operations raise. -/
def extractToken (login_data : Json) : Except PyErr (Option Json) := do
  let hasIm ← pyIn "imdata" login_data
  if hasIm then do
    let im ← pyGetItem login_data "imdata"
    let n ← pyLen im
    if n > 0 then do
      let im2 ← pyGetItem login_data "imdata"
      let e0 ← pyIndexZero im2
      let a ← pyGetMethod e0 "aaaLogin" (.obj [])
      let b ← pyGetMethod a "attributes" (.obj [])
      let tok ← pyGetMethod b "token" .null
      if pyTruthy tok then pure (some tok) else pure none
    else pure none
  else pure none

/-- Lines 22-57: `authenticate_aci`. Besides the outcome it returns the
record of the login POST, which is attempted in every case. The two `except`
clauses catch only `RequestException` and `json.JSONDecodeError`; the
`ACIQueryError` raised inside the `try` body and any `TypeError`,
`AttributeError` or `KeyError` from the token extraction propagate. -/
def authenticate_aci (outcome : StageOutcome) (apic_url : String)
    (username password : Json) (timeout : Int) : Except Exc Session × CallRecord :=
  let session : Session := { verify := false, timeoutAttr := timeout, headers := [] }
  let login_url := urljoin apic_url "/api/aaaLogin.json"
  let record : CallRecord :=
    { url := login_url, timeoutArg := none, params := none,
      jsonBody := some (aaaLoginPayload username password),
      sessionTimeoutAttr := session.timeoutAttr, verify := session.verify,
      headers := session.headers }
  match outcome with
  | .netErr d => (.error (.aci ("Authentication request failed: " ++ d)), record)
  | .resp r =>
    if r.status ≥ 400 then
      (.error (.aci ("Authentication request failed: " ++ httpErrorDetail r.status login_url)), record)
    else
      match Json.parse r.body with
      | none => (.error (.aci ("Invalid JSON response during authentication: " ++ jsonDecodeDetail)), record)
      | some login_data =>
        match extractToken login_data with
        | .error e => (.error (.py e), record)
        | .ok (some tok) =>
          (.ok { session with headers := [("Cookie", "APIC-cookie=" ++ Json.pyStr tok)] }, record)
        | .ok none => (.error (.aci "Authentication failed - no token received"), record)

/-- Lines 63-68 of `query_aci_api`: path normalization. -/
def normalizeApiPath (p : String) : String :=
  if "/api".data.isPrefixOf p.data then p
  else if "/".data.isPrefixOf p.data then "/api" ++ p
  else "/api/" ++ p

/-- Lines 59-81: `query_aci_api`. The path normalization runs before the
`try` block, so an `AttributeError` on a non-string `api_path` propagates
before any network call; the returned record is `none` in that case. -/
def query_aci_api (outcome : StageOutcome) (session : Session) (apic_url : String)
    (api_path : Json) (params : Json) : Except Exc Json × Option CallRecord :=
  match api_path with
  | .str p =>
    let path := normalizeApiPath p
    let query_url := urljoin apic_url path
    let record : CallRecord :=
      { url := query_url, timeoutArg := none, params := some params,
        jsonBody := none,
        sessionTimeoutAttr := session.timeoutAttr, verify := session.verify,
        headers := session.headers }
    (match outcome with
     | .netErr d => .error (.aci ("API query failed: " ++ d))
     | .resp r =>
       if r.status ≥ 400 then
         .error (.aci ("API query failed: " ++ httpErrorDetail r.status query_url))
       else
         match Json.parse r.body with
         | none => .error (.aci ("Invalid JSON response from API: " ++ jsonDecodeDetail))
         | some result => .ok result,
     some record)
  | _ =>
    (.error (.py (.attributeError ("'" ++ pyTypeName api_path ++ "' object has no attribute 'startswith'"))),
     none)

/-- Decimal string of a natural number, as Python's `str(...)`. -/
def natToString (n : Nat) : String := ⟨natToChars n⟩

/-- Line 92: the required input parameters, in checking order. -/
def requiredParams : List String := ["apic_url", "username", "password", "api_path"]

/-- Lines 93-95: the loop checking each required parameter for membership in
the input, raising `ACIQueryError` naming the first missing one. -/
def checkRequiredAux (input_data : Json) : List String → Except Exc Unit
  | [] => .ok ()
  | p :: rest =>
    match pyIn p input_data with
    | .error e => .error (.py e)
    | .ok true => checkRequiredAux input_data rest
    | .ok false => .error (.aci ("Missing required parameter: " ++ p))

/-- Lines 112-125: the success envelope, in dictionary insertion order, with
the conditional `record_count` and `total_count` metadata. -/
def successFields (result : Json) (now : Int) : Except PyErr (List (String × String)) := do
  let base := [("json_data", Json.serialize result), ("status", "success"),
               ("timestamp", intToString now)]
  let hasIm ← pyIn "imdata" result
  let withRc ←
    if hasIm then do
      let im ← pyGetItem result "imdata"
      let n ← pyLen im
      pure (base ++ [("record_count", natToString n)])
    else pure base
  let hasTc ← pyIn "totalCount" result
  if hasTc then do
    let tc ← pyGetItem result "totalCount"
    pure (withRc ++ [("total_count", Json.pyStr tc)])
  else pure withRc

/-- Lines 130-159: the error envelope, identical in shape on every error
path; `json_data` is the literal two-character text of an empty JSON object. -/
def errorFields (msg : String) (now : Int) : List (String × String) :=
  [("json_data", "\x7b\x7d"), ("status", "error"), ("error_message", msg),
   ("timestamp", intToString now)]

/-- Message of the exception reaching one of the three `except` clauses of
`main`, as the clause renders it. -/
def excMessage : Exc → String
  | .aci m => m
  | .inputJson d => "Invalid input JSON: " ++ d
  | .py e => "Unexpected error: " ++ e.message

/-- The envelope as the JSON object `main` prints: every value a string. -/
def envelopeJson (fields : List (String × String)) : Json :=
  .obj (fields.map (fun kv => (kv.1, .str kv.2)))

/-- Observable outcome of one run of the script: the lines printed to
standard output, the envelope fields they encode, the process exit code, and
the records of the network calls attempted. -/
structure RunResult where
  stdout : List String
  output : List (String × String)
  exitCode : Nat
  loginCall : Option CallRecord
  queryCall : Option CallRecord

/-- Body of `main` after the input has parsed (lines 91-128), producing
either the success fields or the exception the `except` clauses receive,
together with the network call records. -/
def mainCore (input_data : Json) (oracle : NetOracle) (now : Int) :
    Except Exc (List (String × String)) × Option CallRecord × Option CallRecord :=
  match checkRequiredAux input_data requiredParams with
  | .error e => (.error e, none, none)
  | .ok _ =>
    match pyGetItem input_data "apic_url" with
    | .error e => (.error (.py e), none, none)
    | .ok urlv =>
      match pyRstrip urlv '/' with
      | .error e => (.error (.py e), none, none)
      | .ok apic_url =>
        match pyGetItem input_data "username" with
        | .error e => (.error (.py e), none, none)
        | .ok username =>
          match pyGetItem input_data "password" with
          | .error e => (.error (.py e), none, none)
          | .ok password =>
            match pyGetItem input_data "api_path" with
            | .error e => (.error (.py e), none, none)
            | .ok api_path =>
              match pyGetMethod input_data "timeout" (.int 30) with
              | .error e => (.error (.py e), none, none)
              | .ok timeoutRaw =>
                match pyInt timeoutRaw with
                | .error e => (.error (.py e), none, none)
                | .ok timeout =>
                  match pyGetMethod input_data "query_params" (.obj []) with
                  | .error e => (.error (.py e), none, none)
                  | .ok query_params =>
                    match authenticate_aci oracle.login apic_url username password timeout with
                    | (.error e, lrec) => (.error e, some lrec, none)
                    | (.ok session, lrec) =>
                      match query_aci_api oracle.query session apic_url api_path query_params with
                      | (.error e, qrec) => (.error e, some lrec, qrec)
                      | (.ok result, qrec) =>
                        match successFields result now with
                        | .error e => (.error (.py e), some lrec, qrec)
                        | .ok fields => (.ok fields, some lrec, qrec)

/-- The tail of `main`: on success print the envelope and fall off the end
of the function (exit code 0); in every `except` clause print the error
envelope and call `sys.exit(1)`. -/
def finishRun (core : Except Exc (List (String × String)) × Option CallRecord × Option CallRecord)
    (now : Int) : RunResult :=
  match core with
  | (.ok fields, lc, qc) =>
    { stdout := [Json.serialize (envelopeJson fields)], output := fields,
      exitCode := 0, loginCall := lc, queryCall := qc }
  | (.error e, lc, qc) =>
    let fields := errorFields (excMessage e) now
    { stdout := [Json.serialize (envelopeJson fields)], output := fields,
      exitCode := 1, loginCall := lc, queryCall := qc }

/-- Lines 83-159: `main`. Reads standard input, parses it as JSON (a failure
goes to the `except json.JSONDecodeError` clause), runs the body, and always
prints exactly one envelope. `now` is the value of `int(time.time())`. -/
def mainRun (stdin : String) (oracle : NetOracle) (now : Int) : RunResult :=
  match Json.parse stdin with
  | none => finishRun (.error (.inputJson jsonDecodeDetail), none, none) now
  | some input_data => finishRun (mainCore input_data oracle now) now

/-- Prefix test on strings, at the character-list level. -/
def strStartsWith (s pre : String) : Bool := pre.data.isPrefixOf s.data

/-- Whether a character list does not begin with a decimal digit; the
serializer guarantees this of everything following a serialized integer. -/
def notDigitStart : List Char → Bool
  | [] => true
  | c :: _ => !isDigitC c

/-- Shape condition on the first `imdata` element of a login response under
which the token extraction of lines 46-47 completes without a Python error
and finds no truthy token: each nested `.get` yields a dictionary (or falls
back to its default) and the final `token` value is absent or falsy. -/
def noTruthyTokenB (e : List (String × Json)) : Bool :=
  match e.lookup "aaaLogin" with
  | none => true
  | some (Json.obj a) =>
    match a.lookup "attributes" with
    | none => true
    | some (Json.obj b) =>
      match b.lookup "token" with
      | none => true
      | some t => !pyTruthy t
    | some _ => false
  | some _ => false

/-- Fixture: a well-formed invocation request used by the concrete runs of
the verification. -/
def okInput : List (String × Json) :=
  [("apic_url", Json.str "https://a"), ("username", Json.str "u"),
   ("password", Json.str "p"), ("api_path", Json.str "x")]

/-- Fixture: the standard input carrying `okInput`. -/
def okStdin : String := Json.serialize (Json.obj okInput)

/-- Fixture: a login response body carrying the token "T" at the expected
path. -/
def goodLoginBody : String :=
  Json.serialize (Json.obj [("imdata", Json.arr [Json.obj [("aaaLogin",
    Json.obj [("attributes", Json.obj [("token", Json.str "T")])])]])])

/-- Fixture: an HTTP response outcome. -/
def respOf (status : Nat) (body : String) : StageOutcome :=
  .resp { status := status, body := body }

/-- Fixture: an invocation request whose `apic_url` field is null. -/
def nullUrlInput : List (String × Json) :=
  [("apic_url", Json.null), ("username", Json.str "u"),
   ("password", Json.str "p"), ("api_path", Json.str "x")]

/-- Fixture: the standard input carrying `nullUrlInput`. -/
def nullUrlStdin : String := Json.serialize (Json.obj nullUrlInput)

/-- Fixture: a benign oracle answering both stages with HTTP 200. -/
def okOracle : NetOracle :=
  { login := respOf 200 goodLoginBody, query := respOf 200 "[]" }

/-- Fixture: a login response body whose `imdata` is the empty array. -/
def emptyImdataBody : String := Json.serialize (Json.obj [("imdata", Json.arr [])])

/-- Fixture: an oracle whose login response carries `emptyImdataBody`. -/
def emptyImdataOracle : NetOracle :=
  { login := respOf 200 emptyImdataBody, query := respOf 200 "[]" }

/-- Fixture: the parsed form of `goodLoginBody`. -/
def goodLoginJson : Json :=
  Json.obj [("imdata", Json.arr [Json.obj [("aaaLogin",
    Json.obj [("attributes", Json.obj [("token", Json.str "T")])])]])]

/-- Fixture: a login body whose token attribute is present but empty. -/
def emptyTokenBody : String :=
  Json.serialize (Json.obj [("imdata", Json.arr [Json.obj [("aaaLogin",
    Json.obj [("attributes", Json.obj [("token", Json.str "")])])]])])

/-- Fixture: an oracle whose login response body is not JSON. -/
def invalidAuthOracle : NetOracle :=
  { login := respOf 200 "oops", query := respOf 200 "[]" }

/-- Fixture: an oracle whose query response body is not JSON. -/
def invalidQueryOracle : NetOracle :=
  { login := respOf 200 goodLoginBody, query := respOf 200 "oops" }

/-- Fixture: `okInput` with an explicit timeout of 5. -/
def timeout5Input : List (String × Json) :=
  [("apic_url", Json.str "https://a"), ("username", Json.str "u"),
   ("password", Json.str "p"), ("api_path", Json.str "x"),
   ("timeout", Json.int 5)]

/-- Fixture: the standard input carrying `timeout5Input`. -/
def timeout5Stdin : String := Json.serialize (Json.obj timeout5Input)

/-!  Round-trip correctness of the serializer and parser, on well-formed
values (no duplicate object keys), as needed by the output invariants. -/

theorem digitChar_toNat (d : Nat) (h : d < 10) : (Nat.digitChar d).toNat = 48 + d := by
  interval_cases d <;> rfl

theorem digitChar_isDigitC (d : Nat) (h : d < 10) : isDigitC (Nat.digitChar d) = true := by
  interval_cases d <;> rfl

theorem hexDigit_hexVal (d : Nat) (h : d < 16) : hexVal? (Nat.digitChar d) = some d := by
  interval_cases d <;> rfl

theorem natToCharsAux_fuel : ∀ f₁ f₂ n, n < f₁ → n < f₂ →
    natToCharsAux f₁ n = natToCharsAux f₂ n := by
  intro f₁
  induction f₁ with
  | zero => intro f₂ n h _; omega
  | succ g ih =>
    intro f₂ n h1 h2
    cases f₂ with
    | zero => omega
    | succ g2 =>
      simp only [natToCharsAux]
      by_cases hn : n < 10
      · simp [hn]
      · simp only [hn, if_false]
        rw [ih g2 (n / 10) (by omega) (by omega)]

theorem natToChars_eq_rec (n : Nat) : natToChars n =
    if n < 10 then [Nat.digitChar n]
    else natToChars (n / 10) ++ [Nat.digitChar (n % 10)] := by
  by_cases hn : n < 10
  · simp [natToChars, natToCharsAux, hn]
  · simp only [hn, if_false]
    show natToCharsAux (n + 1) n = natToChars (n / 10) ++ [Nat.digitChar (n % 10)]
    simp only [natToCharsAux, hn, if_false]
    rw [natToCharsAux_fuel n (n / 10 + 1) (n / 10) (by omega) (by omega)]
    rfl

theorem natToChars_ne_nil (n : Nat) : natToChars n ≠ [] := by
  rw [natToChars_eq_rec]
  by_cases hn : n < 10 <;> simp [hn]

theorem natToChars_all_digits (n : Nat) : ∀ c ∈ natToChars n, isDigitC c = true := by
  induction n using Nat.strong_induction_on with
  | _ n ih =>
    rw [natToChars_eq_rec]
    by_cases hn : n < 10
    · simp only [hn, if_true, List.mem_singleton]
      intro c hc; subst hc; exact digitChar_isDigitC n hn
    · simp only [hn, if_false, List.mem_append, List.mem_singleton]
      intro c hc
      rcases hc with hc | hc
      · exact ih (n / 10) (by omega) c hc
      · subst hc; exact digitChar_isDigitC (n % 10) (by omega)

theorem parseDigitsAux_append (ds : List Char) : ∀ acc rest,
    (∀ c ∈ ds, isDigitC c = true) → notDigitStart rest = true →
    parseDigitsAux acc (ds ++ rest) =
      (ds.foldl (fun a c => a * 10 + (c.toNat - 48)) acc, rest) := by
  induction ds with
  | nil =>
    intro acc rest _ hrest
    cases rest with
    | nil => rfl
    | cons r rs =>
      simp only [notDigitStart, Bool.not_eq_true'] at hrest
      simp [parseDigitsAux, hrest]
  | cons c cs ih =>
    intro acc rest hds hrest
    have hc : isDigitC c = true := hds c (List.mem_cons_self c cs)
    simp only [List.cons_append, parseDigitsAux, hc, if_true, List.foldl_cons]
    exact ih _ rest (fun x hx => hds x (List.mem_cons_of_mem c hx)) hrest

theorem natToChars_foldl (n : Nat) : ∀ acc,
    (natToChars n).foldl (fun a c => a * 10 + (c.toNat - 48)) acc =
      acc * 10 ^ (natToChars n).length + n := by
  induction n using Nat.strong_induction_on with
  | _ n ih =>
    intro acc
    rw [natToChars_eq_rec]
    by_cases hn : n < 10
    · simp [hn, digitChar_toNat n hn]
    · simp only [hn, if_false, List.foldl_append, List.foldl_cons, List.foldl_nil,
        List.length_append, List.length_singleton]
      rw [ih (n / 10) (by omega)]
      have hd : (Nat.digitChar (n % 10)).toNat = 48 + n % 10 :=
        digitChar_toNat (n % 10) (by omega)
      rw [hd, pow_succ]
      have : (acc * 10 ^ (natToChars (n / 10)).length + n / 10) * 10 =
          acc * (10 ^ (natToChars (n / 10)).length * 10) + n / 10 * 10 := by ring
      rw [this]
      omega

theorem parseNat_natToChars (n : Nat) (rest : List Char)
    (hrest : notDigitStart rest = true) :
    parseNat (natToChars n ++ rest) = some (n, rest) := by
  obtain ⟨c, cs, hcons⟩ : ∃ c cs, natToChars n = c :: cs := by
    cases h : natToChars n with
    | nil => exact absurd h (natToChars_ne_nil n)
    | cons c cs => exact ⟨c, cs, rfl⟩
  have hc : isDigitC c = true := by
    refine natToChars_all_digits n c ?_
    rw [hcons]; exact List.mem_cons_self c cs
  have hall : ∀ x ∈ natToChars n, isDigitC x = true := natToChars_all_digits n
  rw [hcons] at hall ⊢
  simp only [List.cons_append, parseNat, hc, if_true]
  have := parseDigitsAux_append (c :: cs) 0 rest hall hrest
  simp only [List.cons_append] at this
  rw [this]
  have hf := natToChars_foldl n 0
  rw [hcons] at hf
  simp only [List.foldl_cons] at hf ⊢
  rw [hf]
  simp

theorem parseStringBodyF_escape (s : List Char) : ∀ f rest,
    (escapeChars s).length < f →
    parseStringBodyF f (escapeChars s ++ '"' :: rest) = some (s, rest) := by
  induction s with
  | nil =>
    intro f rest h
    cases f with
    | zero => omega
    | succ g => simp [escapeChars, parseStringBodyF]
  | cons c cs ih =>
    intro f rest h
    cases f with
    | zero => omega
    | succ g =>
      by_cases h1 : c = '"'
      · subst h1
        have hlt : (escapeChars cs).length < g := by
          simp [escapeChars, escapeChar] at h; omega
        rw [show escapeChars ('"' :: cs) = '\\' :: '"' :: escapeChars cs from by
          simp [escapeChars, escapeChar]]
        simp only [List.cons_append]
        rw [show parseStringBodyF (g + 1) ('\\' :: '"' :: (escapeChars cs ++ '"' :: rest)) =
            (match parseStringBodyF g (escapeChars cs ++ '"' :: rest) with
             | some (s, r) => some ('"' :: s, r)
             | none => none) from rfl]
        rw [ih g rest hlt]
      · by_cases h2 : c = '\\'
        · subst h2
          have hlt : (escapeChars cs).length < g := by
            simp [escapeChars, escapeChar] at h; omega
          rw [show escapeChars ('\\' :: cs) = '\\' :: '\\' :: escapeChars cs from by
            simp [escapeChars, escapeChar]]
          simp only [List.cons_append]
          rw [show parseStringBodyF (g + 1) ('\\' :: '\\' :: (escapeChars cs ++ '"' :: rest)) =
              (match parseStringBodyF g (escapeChars cs ++ '"' :: rest) with
               | some (s, r) => some ('\\' :: s, r)
               | none => none) from rfl]
          rw [ih g rest hlt]
        · by_cases h3 : c = '\n'
          · subst h3
            have hlt : (escapeChars cs).length < g := by
              simp [escapeChars, escapeChar] at h; omega
            rw [show escapeChars ('\n' :: cs) = '\\' :: 'n' :: escapeChars cs from by
              simp [escapeChars, escapeChar]]
            simp only [List.cons_append]
            rw [show parseStringBodyF (g + 1) ('\\' :: 'n' :: (escapeChars cs ++ '"' :: rest)) =
                (match parseStringBodyF g (escapeChars cs ++ '"' :: rest) with
                 | some (s, r) => some ('\n' :: s, r)
                 | none => none) from rfl]
            rw [ih g rest hlt]
          · by_cases h4 : c = '\r'
            · subst h4
              have hlt : (escapeChars cs).length < g := by
                simp [escapeChars, escapeChar] at h; omega
              rw [show escapeChars ('\r' :: cs) = '\\' :: 'r' :: escapeChars cs from by
                simp [escapeChars, escapeChar]]
              simp only [List.cons_append]
              rw [show parseStringBodyF (g + 1) ('\\' :: 'r' :: (escapeChars cs ++ '"' :: rest)) =
                  (match parseStringBodyF g (escapeChars cs ++ '"' :: rest) with
                   | some (s, r) => some ('\r' :: s, r)
                   | none => none) from rfl]
              rw [ih g rest hlt]
            · by_cases h5 : c = '\t'
              · subst h5
                have hlt : (escapeChars cs).length < g := by
                  simp [escapeChars, escapeChar] at h; omega
                rw [show escapeChars ('\t' :: cs) = '\\' :: 't' :: escapeChars cs from by
                  simp [escapeChars, escapeChar]]
                simp only [List.cons_append]
                rw [show parseStringBodyF (g + 1) ('\\' :: 't' :: (escapeChars cs ++ '"' :: rest)) =
                    (match parseStringBodyF g (escapeChars cs ++ '"' :: rest) with
                     | some (s, r) => some ('\t' :: s, r)
                     | none => none) from rfl]
                rw [ih g rest hlt]
              · by_cases h6 : c.toNat = 8
                · have he : escapeChar c = ['\\', 'b'] := by
                    simp [escapeChar, h1, h2, h3, h4, h5, h6]
                  have hc : Char.ofNat 8 = c := by rw [← h6, Char.ofNat_toNat]
                  have hlt : (escapeChars cs).length < g := by
                    rw [show escapeChars (c :: cs) = escapeChar c ++ escapeChars cs from rfl,
                      he] at h
                    simp at h; omega
                  rw [show escapeChars (c :: cs) = escapeChar c ++ escapeChars cs from rfl, he]
                  simp only [List.cons_append, List.nil_append]
                  rw [show parseStringBodyF (g + 1) ('\\' :: 'b' :: (escapeChars cs ++ '"' :: rest)) =
                      (match parseStringBodyF g (escapeChars cs ++ '"' :: rest) with
                       | some (s, r) => some (Char.ofNat 8 :: s, r)
                       | none => none) from rfl]
                  rw [ih g rest hlt, hc]
                · by_cases h7 : c.toNat = 12
                  · have he : escapeChar c = ['\\', 'f'] := by
                      simp [escapeChar, h1, h2, h3, h4, h5, h6, h7]
                    have hc : Char.ofNat 12 = c := by rw [← h7, Char.ofNat_toNat]
                    have hlt : (escapeChars cs).length < g := by
                      rw [show escapeChars (c :: cs) = escapeChar c ++ escapeChars cs from rfl,
                        he] at h
                      simp at h; omega
                    rw [show escapeChars (c :: cs) = escapeChar c ++ escapeChars cs from rfl, he]
                    simp only [List.cons_append, List.nil_append]
                    rw [show parseStringBodyF (g + 1) ('\\' :: 'f' :: (escapeChars cs ++ '"' :: rest)) =
                        (match parseStringBodyF g (escapeChars cs ++ '"' :: rest) with
                         | some (s, r) => some (Char.ofNat 12 :: s, r)
                         | none => none) from rfl]
                    rw [ih g rest hlt, hc]
                  · by_cases h8 : c.toNat < 32
                    · have he : escapeChar c = ['\\', 'u', '0', '0',
                          Nat.digitChar (c.toNat / 16), Nat.digitChar (c.toNat % 16)] := by
                        simp [escapeChar, h1, h2, h3, h4, h5, h6, h7, h8]
                      have hlt : (escapeChars cs).length < g := by
                        rw [show escapeChars (c :: cs) = escapeChar c ++ escapeChars cs from rfl,
                          he] at h
                        simp at h; omega
                      rw [show escapeChars (c :: cs) = escapeChar c ++ escapeChars cs from rfl, he]
                      simp only [List.cons_append, List.nil_append]
                      simp only [parseStringBodyF]
                      rw [show hexVal? '0' = some 0 from rfl,
                        hexDigit_hexVal (c.toNat / 16) (by omega),
                        hexDigit_hexVal (c.toNat % 16) (by omega)]
                      have hn : ((0 * 16 + 0) * 16 + c.toNat / 16) * 16 + c.toNat % 16 = c.toNat := by
                        omega
                      simp only [hn]
                      have hsur : ¬(0xD800 ≤ c.toNat ∧ c.toNat < 0xE000) := by omega
                      simp only [hsur, if_false]
                      rw [ih g rest hlt]
                      simp [Char.ofNat_toNat]
                    · have he : escapeChar c = [c] := by
                        simp [escapeChar, h1, h2, h3, h4, h5, h6, h7, h8]
                      have hlt : (escapeChars cs).length < g := by
                        rw [show escapeChars (c :: cs) = escapeChar c ++ escapeChars cs from rfl,
                          he] at h
                        simp at h; omega
                      rw [show escapeChars (c :: cs) = escapeChar c ++ escapeChars cs from rfl, he]
                      simp only [List.cons_append, List.nil_append]
                      simp only [parseStringBodyF, if_neg h1, if_neg h2]
                      rw [ih g rest hlt]

theorem parseStringBody_escape (s rest : List Char) :
    parseStringBody (escapeChars s ++ '"' :: rest) = some (s, rest) := by
  unfold parseStringBody
  exact parseStringBodyF_escape s _ rest (by simp; omega)

theorem nodeCount_pos (j : Json) : 1 ≤ j.nodeCount := by
  cases j <;> simp [Json.nodeCount]

theorem serElems_eq_tail (xs : List Json) : ∀ x,
    Json.serElems (x :: xs) = Json.serChars x ++ serTailElems xs := by
  induction xs with
  | nil => intro x; simp [Json.serElems, serTailElems]
  | cons y ys ih =>
    intro x
    rw [show Json.serElems (x :: y :: ys) = Json.serChars x ++ ',' :: ' ' :: Json.serElems (y :: ys)
      from rfl]
    rw [ih y]
    simp [serTailElems]

theorem serMembers_eq_tail (ms : List (String × Json)) : ∀ k v,
    Json.serMembers ((k, v) :: ms) =
      '"' :: (escapeChars k.data ++ ['"', ':', ' ']) ++ Json.serChars v ++ serTailMembers ms := by
  induction ms with
  | nil => intro k v; simp [Json.serMembers, serTailMembers]
  | cons m rest ih =>
    intro k v
    obtain ⟨k2, v2⟩ := m
    rw [show Json.serMembers ((k, v) :: (k2, v2) :: rest) =
        '"' :: (escapeChars k.data ++ ['"', ':', ' ']) ++ Json.serChars v
          ++ ',' :: ' ' :: Json.serMembers ((k2, v2) :: rest) from rfl]
    rw [ih k2 v2]
    simp [serTailMembers]

theorem not_ws_of_digit (c : Char) (h : isDigitC c = true) : isJsonWs c = false := by
  simp only [isDigitC, Bool.and_eq_true, decide_eq_true_eq] at h
  simp only [isJsonWs, Bool.or_eq_false_iff, decide_eq_false_iff_not]
  refine ⟨⟨⟨?_, ?_⟩, ?_⟩, ?_⟩ <;> intro heq <;> subst heq <;> exact absurd h (by decide)

theorem digit_ne_delims (c : Char) (h : isDigitC c = true) :
    c ≠ 'n' ∧ c ≠ 't' ∧ c ≠ 'f' ∧ c ≠ '"' ∧ c ≠ '-' ∧ c ≠ '[' ∧ c ≠ '{' ∧ c ≠ ']' ∧ c ≠ '}' := by
  simp only [isDigitC, Bool.and_eq_true, decide_eq_true_eq] at h
  refine ⟨?_, ?_, ?_, ?_, ?_, ?_, ?_, ?_, ?_⟩ <;> intro heq <;> subst heq <;>
    exact absurd h (by decide)

theorem serChars_head (j : Json) : ∃ c cs, Json.serChars j = c :: cs ∧
    isJsonWs c = false ∧ c ≠ ']' ∧ c ≠ '}' := by
  cases j with
  | null => refine ⟨'n', _, rfl, ?_, ?_, ?_⟩ <;> decide
  | bool b =>
    cases b with
    | true => refine ⟨'t', _, rfl, ?_, ?_, ?_⟩ <;> decide
    | false => refine ⟨'f', _, rfl, ?_, ?_, ?_⟩ <;> decide
  | int n =>
    rw [show Json.serChars (.int n) = intToChars n from rfl]
    unfold intToChars
    by_cases hn : n < 0
    · exact ⟨'-', natToChars (-n).toNat, by simp [hn], by decide, by decide, by decide⟩
    · simp only [hn, if_false]
      obtain ⟨c, cs, hcons⟩ : ∃ c cs, natToChars n.toNat = c :: cs := by
        cases h : natToChars n.toNat with
        | nil => exact absurd h (natToChars_ne_nil _)
        | cons c cs => exact ⟨c, cs, rfl⟩
      have hd : isDigitC c = true :=
        natToChars_all_digits n.toNat c (by rw [hcons]; exact List.mem_cons_self c cs)
      obtain ⟨_, _, _, _, _, _, _, h8, h9⟩ := digit_ne_delims c hd
      exact ⟨c, cs, hcons, not_ws_of_digit c hd, h8, h9⟩
  | str s => refine ⟨'"', _, rfl, ?_, ?_, ?_⟩ <;> decide
  | arr xs => refine ⟨'[', _, rfl, ?_, ?_, ?_⟩ <;> decide
  | obj ms => refine ⟨'{', _, rfl, ?_, ?_, ?_⟩ <;> decide

theorem skipWs_cons_not_ws (c : Char) (cs : List Char) (h : isJsonWs c = false) :
    skipWs (c :: cs) = c :: cs := by
  simp [skipWs, List.dropWhile_cons, h]

theorem parseVal_ws_cons (f : Nat) (c : Char) (l : List Char) (h : isJsonWs c = true) :
    parseVal f (c :: l) = parseVal f l := by
  cases f with
  | zero => rfl
  | succ g => simp only [parseVal, skipWs, List.dropWhile_cons, h, if_true]

theorem notDigitStart_serTailElems (xs : List Json) (rest : List Char) :
    notDigitStart (serTailElems xs ++ ']' :: rest) = true := by
  cases xs <;> simp [serTailElems, notDigitStart, isDigitC]

theorem notDigitStart_serTailMembers (ms : List (String × Json)) (rest : List Char) :
    notDigitStart (serTailMembers ms ++ '}' :: rest) = true := by
  cases ms with
  | nil => simp [serTailMembers, notDigitStart, isDigitC]
  | cons m rest2 =>
    obtain ⟨k, v⟩ := m
    simp [serTailMembers, notDigitStart, isDigitC]

theorem contains_false_iff (l : List String) (k : String) :
    (l.contains k) = false ↔ k ∉ l := by
  rw [show l.contains k = List.elem k l from rfl]
  constructor
  · intro h hm
    have h2 : List.elem k l = true := List.elem_iff.mpr hm
    rw [h] at h2
    exact Bool.false_ne_true h2
  · intro h
    by_cases hb : List.elem k l = true
    · exact absurd (List.elem_iff.mp hb) h
    · simpa using hb

theorem nodupKeysB_iff (ks : List String) : nodupKeysB ks = true ↔ ks.Nodup := by
  induction ks with
  | nil => simp [nodupKeysB]
  | cons k rest ih =>
    simp only [nodupKeysB, Bool.and_eq_true, Bool.not_eq_true', ih, List.nodup_cons]
    rw [contains_false_iff]

theorem any_key_false_iff (m : List (String × Json)) (k : String) :
    (m.any (fun p => p.1 == k)) = false ↔ k ∉ m.map Prod.fst := by
  constructor
  · intro h hm
    rw [List.mem_map] at hm
    obtain ⟨p, hp, hpk⟩ := hm
    have : m.any (fun p => p.1 == k) = true := List.any_eq_true.mpr ⟨p, hp, by simp [hpk]⟩
    simp [this] at h
  · intro h
    rw [Bool.eq_false_iff]
    intro hb
    obtain ⟨p, hp, hpk⟩ := List.any_eq_true.mp hb
    exact h (List.mem_map.mpr ⟨p, hp, by simpa using hpk⟩)

theorem dictInsert_not_mem (m : List (String × Json)) (k : String) (v : Json)
    (h : m.any (fun p => p.1 == k) = false) : dictInsert m k v = m ++ [(k, v)] := by
  simp [dictInsert, h]

theorem foldl_dictInsert_nodup : ∀ (l acc : List (String × Json)),
    ((acc ++ l).map Prod.fst).Nodup →
    l.foldl (fun m kv => dictInsert m kv.1 kv.2) acc = acc ++ l := by
  intro l
  induction l with
  | nil => intro acc _; simp
  | cons kv l' ih =>
    intro acc hnd
    obtain ⟨k, v⟩ := kv
    have hk : k ∉ acc.map Prod.fst := by
      rw [List.map_append] at hnd
      rw [show ((k, v) :: l').map Prod.fst = k :: l'.map Prod.fst from rfl] at hnd
      rw [List.nodup_middle, List.nodup_cons] at hnd
      intro hm
      exact hnd.1 (List.mem_append.mpr (Or.inl hm))
    have hins : dictInsert acc k v = acc ++ [(k, v)] :=
      dictInsert_not_mem acc k v ((any_key_false_iff acc k).mpr hk)
    rw [List.foldl_cons]
    show List.foldl _ (dictInsert acc k v) l' = _
    rw [hins, ih (acc ++ [(k, v)]) (by simpa using hnd)]
    simp

theorem dedupeMembers_of_nodup (l : List (String × Json))
    (h : nodupKeysB (l.map Prod.fst) = true) : dedupeMembers l = l := by
  have h2 := foldl_dictInsert_nodup l [] (by simpa using (nodupKeysB_iff _).mp h)
  simpa [dedupeMembers] using h2

theorem parseVal_null_step (g : Nat) (rest : List Char) :
    parseVal (g + 1) ('n' :: 'u' :: 'l' :: 'l' :: rest) = some (.null, rest) := rfl

theorem parseVal_true_step (g : Nat) (rest : List Char) :
    parseVal (g + 1) ('t' :: 'r' :: 'u' :: 'e' :: rest) = some (.bool true, rest) := rfl

theorem parseVal_false_step (g : Nat) (rest : List Char) :
    parseVal (g + 1) ('f' :: 'a' :: 'l' :: 's' :: 'e' :: rest) = some (.bool false, rest) := rfl

theorem parseVal_str_step (g : Nat) (l : List Char) :
    parseVal (g + 1) ('"' :: l) =
      (match parseStringBody l with
       | some (s, r) => some (.str ⟨s⟩, r)
       | none => none) := rfl

theorem parseVal_neg_step (g : Nat) (l : List Char) :
    parseVal (g + 1) ('-' :: l) =
      (match parseNat l with
       | some (m, r) => some (.int (-(m : Int)), r)
       | none => none) := rfl

theorem parseVal_digit_step (g : Nat) (c : Char) (l : List Char) (hd : isDigitC c = true) :
    parseVal (g + 1) (c :: l) =
      (match parseNat (c :: l) with
       | some (m, r) => some (.int (m : Int), r)
       | none => none) := by
  obtain ⟨ne1, ne2, ne3, ne4, ne5, _, _, _, _⟩ := digit_ne_delims c hd
  simp only [parseVal]
  rw [skipWs_cons_not_ws c l (not_ws_of_digit c hd)]
  simp only [if_neg ne1, if_neg ne2, if_neg ne3, if_neg ne4, if_neg ne5, hd, if_true]

theorem parseVal_arr_nil_step (g : Nat) (rest : List Char) :
    parseVal (g + 1) ('[' :: ']' :: rest) = some (.arr [], rest) := rfl

theorem parseVal_arr_cons_step (g : Nat) (c0 : Char) (l0 : List Char)
    (hne : c0 ≠ ']') (hws : isJsonWs c0 = false) :
    parseVal (g + 1) ('[' :: c0 :: l0) =
      (match parseVal g (c0 :: l0) with
       | some (v, r1) =>
         match parseElemsTail g r1 with
         | some (vs, r2) => some (.arr (v :: vs), r2)
         | none => none
       | none => none) := by
  rw [show parseVal (g + 1) ('[' :: c0 :: l0) =
      (match skipWs (c0 :: l0) with
       | ']' :: r => some (.arr [], r)
       | cs2 =>
         match parseVal g cs2 with
         | some (v, r1) =>
           match parseElemsTail g r1 with
           | some (vs, r2) => some (.arr (v :: vs), r2)
           | none => none
         | none => none) from rfl]
  rw [skipWs_cons_not_ws c0 l0 hws]
  split
  · rename_i r heq
    rw [List.cons.injEq] at heq
    exact absurd heq.1 hne
  · rfl

theorem parseVal_obj_nil_step (g : Nat) (rest : List Char) :
    parseVal (g + 1) ('{' :: '}' :: rest) = some (.obj [], rest) := rfl

theorem parseVal_obj_cons_step (g : Nat) (l : List Char) :
    parseVal (g + 1) ('{' :: '"' :: l) =
      (match parseStringBody l with
       | some (k, r1) =>
         (match skipWs r1 with
          | ':' :: r2 =>
            match parseVal g r2 with
            | some (v, r3) =>
              match parseMembersTail g r3 with
              | some (ms, r4) => some (.obj (dedupeMembers ((⟨k⟩, v) :: ms)), r4)
              | none => none
            | none => none
          | _ => none)
       | none => none) := rfl

theorem parseElemsTail_close_step (g : Nat) (rest : List Char) :
    parseElemsTail (g + 1) (']' :: rest) = some ([], rest) := rfl

theorem parseElemsTail_comma_step (g : Nat) (l : List Char) :
    parseElemsTail (g + 1) (',' :: l) =
      (match parseVal g l with
       | some (v, r1) =>
         match parseElemsTail g r1 with
         | some (vs, r2) => some (v :: vs, r2)
         | none => none
       | none => none) := rfl

theorem parseMembersTail_close_step (g : Nat) (rest : List Char) :
    parseMembersTail (g + 1) ('}' :: rest) = some ([], rest) := rfl

theorem parseMembersTail_comma_step (g : Nat) (l : List Char) :
    parseMembersTail (g + 1) (',' :: ' ' :: '"' :: l) =
      (match parseStringBody l with
       | some (k, r2) =>
         (match skipWs r2 with
          | ':' :: r3 =>
            match parseVal g r3 with
            | some (v, r4) =>
              match parseMembersTail g r4 with
              | some (ms, r5) => some ((⟨k⟩, v) :: ms, r5)
              | none => none
            | none => none
          | _ => none)
       | none => none) := rfl

theorem parseVal_obj_member_step (g : Nat) (kd X : List Char) :
    parseVal (g + 1) ('{' :: '"' :: (escapeChars kd ++ '"' :: ':' :: ' ' :: X)) =
      (match parseVal g (' ' :: X) with
       | some (v, r3) =>
         match parseMembersTail g r3 with
         | some (ms, r4) => some (.obj (dedupeMembers ((⟨kd⟩, v) :: ms)), r4)
         | none => none
       | none => none) := by
  rw [parseVal_obj_cons_step g _]
  rw [show escapeChars kd ++ '"' :: ':' :: ' ' :: X =
      escapeChars kd ++ '"' :: (':' :: ' ' :: X) from rfl]
  rw [parseStringBody_escape kd (':' :: ' ' :: X)]
  rfl

theorem parseMembersTail_member_step (g : Nat) (kd X : List Char) :
    parseMembersTail (g + 1) (',' :: ' ' :: '"' :: (escapeChars kd ++ '"' :: ':' :: ' ' :: X)) =
      (match parseVal g (' ' :: X) with
       | some (v, r4) =>
         match parseMembersTail g r4 with
         | some (ms, r5) => some ((⟨kd⟩, v) :: ms, r5)
         | none => none
       | none => none) := by
  rw [parseMembersTail_comma_step g _]
  rw [show escapeChars kd ++ '"' :: ':' :: ' ' :: X =
      escapeChars kd ++ '"' :: (':' :: ' ' :: X) from rfl]
  rw [parseStringBody_escape kd (':' :: ' ' :: X)]
  rfl

theorem parse_ser_all : ∀ f : Nat,
    (∀ j rest, Json.wfB j = true → j.nodeCount ≤ f → notDigitStart rest = true →
      parseVal f (Json.serChars j ++ rest) = some (j, rest)) ∧
    (∀ xs rest, Json.wfListB xs = true → 1 + Json.nodeCountList xs ≤ f →
      parseElemsTail f (serTailElems xs ++ ']' :: rest) = some (xs, rest)) ∧
    (∀ ms rest, Json.wfMembersB ms = true → 1 + Json.nodeCountMembers ms ≤ f →
      parseMembersTail f (serTailMembers ms ++ '}' :: rest) = some (ms, rest)) := by
  intro f
  induction f with
  | zero =>
    refine ⟨?_, ?_, ?_⟩
    · intro j rest _ hn _
      have := nodeCount_pos j
      omega
    · intro xs rest _ hn
      omega
    · intro ms rest _ hn
      omega
  | succ g ih =>
    obtain ⟨ihV, ihE, ihM⟩ := ih
    refine ⟨?_, ?_, ?_⟩
    · intro j rest hwf hn hrest
      cases j with
      | null => exact parseVal_null_step g rest
      | bool b =>
        cases b
        · exact parseVal_false_step g rest
        · exact parseVal_true_step g rest
      | int n =>
        rw [show Json.serChars (.int n) = intToChars n from rfl]
        unfold intToChars
        by_cases hneg : n < 0
        · simp only [hneg, if_true, List.cons_append]
          rw [parseVal_neg_step g _, parseNat_natToChars (-n).toNat rest hrest]
          have h2 : -(((-n).toNat : Int)) = n := by
            rw [Int.toNat_of_nonneg (by omega)]
            ring
          show some (Json.int (-(((-n).toNat : Int))), rest) = some (Json.int n, rest)
          rw [h2]
        · simp only [hneg, if_false]
          obtain ⟨c, cs, hcons⟩ : ∃ c cs, natToChars n.toNat = c :: cs := by
            cases h : natToChars n.toNat with
            | nil => exact absurd h (natToChars_ne_nil _)
            | cons c cs => exact ⟨c, cs, rfl⟩
          have hd : isDigitC c = true :=
            natToChars_all_digits n.toNat c (by rw [hcons]; exact List.mem_cons_self c cs)
          rw [hcons, List.cons_append, parseVal_digit_step g c _ hd]
          have hp := parseNat_natToChars n.toNat rest hrest
          rw [hcons, List.cons_append] at hp
          rw [hp]
          show some (Json.int ((n.toNat : Int)), rest) = some (Json.int n, rest)
          rw [show ((n.toNat : Int)) = n from Int.toNat_of_nonneg (by omega)]
      | str s =>
        obtain ⟨sd⟩ := s
        rw [show Json.serChars (.str ⟨sd⟩) = '"' :: (escapeChars sd ++ ['"']) from rfl]
        simp only [List.cons_append, List.append_assoc, List.singleton_append, List.nil_append]
        rw [parseVal_str_step g _, parseStringBody_escape sd rest]
      | arr xs =>
        cases xs with
        | nil => exact parseVal_arr_nil_step g rest
        | cons x xs' =>
          simp only [Json.wfB, Json.wfListB, Bool.and_eq_true] at hwf
          obtain ⟨hwx, hwxs⟩ := hwf
          simp only [Json.nodeCount, Json.nodeCountList] at hn
          have hpx := nodeCount_pos x
          rw [show Json.serChars (.arr (x :: xs')) =
              '[' :: (Json.serElems (x :: xs') ++ [']']) from rfl]
          rw [serElems_eq_tail xs' x]
          obtain ⟨c0, cs0, hx, hws0, hne0, _⟩ := serChars_head x
          rw [hx]
          simp only [List.cons_append, List.append_assoc, List.singleton_append, List.nil_append]
          rw [parseVal_arr_cons_step g c0 _ hne0 hws0]
          have h1 : parseVal g (c0 :: (cs0 ++ (serTailElems xs' ++ ']' :: rest))) =
              some (x, serTailElems xs' ++ ']' :: rest) := by
            have h2 := ihV x (serTailElems xs' ++ ']' :: rest) hwx (by omega)
              (notDigitStart_serTailElems xs' rest)
            rw [hx] at h2
            simpa [List.cons_append, List.append_assoc] using h2
          rw [h1]
          simp [ihE xs' rest hwxs (by omega)]
      | obj ms =>
        cases ms with
        | nil => exact parseVal_obj_nil_step g rest
        | cons kv ms' =>
          obtain ⟨k, v⟩ := kv
          simp only [Json.wfB, Json.wfMembersB, Bool.and_eq_true] at hwf
          obtain ⟨hnd, hwv, hwms⟩ := hwf
          simp only [Json.nodeCount, Json.nodeCountMembers] at hn
          have hpv := nodeCount_pos v
          rw [show Json.serChars (.obj ((k, v) :: ms')) =
              '{' :: (Json.serMembers ((k, v) :: ms') ++ ['}']) from rfl]
          rw [serMembers_eq_tail ms' k v]
          simp only [List.cons_append, List.append_assoc, List.singleton_append, List.nil_append]
          rw [parseVal_obj_member_step g k.data
            (Json.serChars v ++ (serTailMembers ms' ++ '}' :: rest))]
          rw [parseVal_ws_cons g ' ' _ (by decide)]
          rw [ihV v (serTailMembers ms' ++ '}' :: rest) hwv (by omega)
            (notDigitStart_serTailMembers ms' rest)]
          simp [ihM ms' rest hwms (by omega), dedupeMembers_of_nodup ((k, v) :: ms') hnd]
    · intro xs rest hwf hn
      cases xs with
      | nil => exact parseElemsTail_close_step g rest
      | cons x xs' =>
        simp only [Json.wfListB, Bool.and_eq_true] at hwf
        obtain ⟨hwx, hwxs⟩ := hwf
        simp only [Json.nodeCountList] at hn
        have hpx := nodeCount_pos x
        rw [show serTailElems (x :: xs') = ',' :: ' ' :: (Json.serChars x ++ serTailElems xs')
          from rfl]
        simp only [List.cons_append, List.append_assoc]
        rw [parseElemsTail_comma_step g _]
        rw [parseVal_ws_cons g ' ' _ (by decide)]
        rw [ihV x (serTailElems xs' ++ ']' :: rest) hwx (by omega)
          (notDigitStart_serTailElems xs' rest)]
        simp [ihE xs' rest hwxs (by omega)]
    · intro ms rest hwf hn
      cases ms with
      | nil => exact parseMembersTail_close_step g rest
      | cons kv ms' =>
        obtain ⟨k, v⟩ := kv
        simp only [Json.wfMembersB, Bool.and_eq_true] at hwf
        obtain ⟨hwv, hwms⟩ := hwf
        simp only [Json.nodeCountMembers] at hn
        have hpv := nodeCount_pos v
        rw [show serTailMembers ((k, v) :: ms') =
            ',' :: ' ' :: '"' :: (escapeChars k.data ++ ['"', ':', ' '])
              ++ Json.serChars v ++ serTailMembers ms' from rfl]
        simp only [List.cons_append, List.append_assoc, List.singleton_append, List.nil_append]
        rw [parseMembersTail_member_step g k.data
          (Json.serChars v ++ (serTailMembers ms' ++ '}' :: rest))]
        rw [parseVal_ws_cons g ' ' _ (by decide)]
        rw [ihV v (serTailMembers ms' ++ '}' :: rest) hwv (by omega)
          (notDigitStart_serTailMembers ms' rest)]
        simp [ihM ms' rest hwms (by omega)]

theorem intToChars_ne_nil (n : Int) : intToChars n ≠ [] := by
  unfold intToChars
  by_cases hn : n < 0
  · simp [hn]
  · simp only [hn, if_false]
    exact natToChars_ne_nil _

theorem nodeCount_le_serLen_all : ∀ f : Nat,
    (∀ j : Json, j.nodeCount ≤ f → j.nodeCount ≤ (Json.serChars j).length) ∧
    (∀ xs : List Json, 1 + Json.nodeCountList xs ≤ f →
        Json.nodeCountList xs ≤ (serTailElems xs).length + 1) ∧
    (∀ ms : List (String × Json), 1 + Json.nodeCountMembers ms ≤ f →
        Json.nodeCountMembers ms ≤ (serTailMembers ms).length + 1) := by
  intro f
  induction f with
  | zero =>
    refine ⟨?_, ?_, ?_⟩
    · intro j hn
      have := nodeCount_pos j
      omega
    · intro xs hn
      omega
    · intro ms hn
      omega
  | succ g ih =>
    obtain ⟨ihV, ihE, ihM⟩ := ih
    refine ⟨?_, ?_, ?_⟩
    · intro j hn
      cases j with
      | null => simp [Json.serChars, Json.nodeCount]
      | bool b => cases b <;> simp [Json.serChars, Json.nodeCount]
      | int n =>
        have h1 : intToChars n ≠ [] := intToChars_ne_nil n
        have h2 : 1 ≤ (intToChars n).length := by
          cases h : intToChars n with
          | nil => exact absurd h h1
          | cons c cs => simp
        simpa [Json.nodeCount, Json.serChars] using h2
      | str s => simp [Json.serChars, Json.nodeCount]
      | arr xs =>
        cases xs with
        | nil => simp [Json.serChars, Json.nodeCount, Json.nodeCountList, Json.serElems]
        | cons x xs' =>
          simp only [Json.nodeCount, Json.nodeCountList] at hn ⊢
          have hpx := nodeCount_pos x
          have h1 := ihV x (by omega)
          have h2 := ihE xs' (by omega)
          rw [show Json.serChars (.arr (x :: xs')) =
              '[' :: (Json.serElems (x :: xs') ++ [']']) from rfl]
          rw [serElems_eq_tail xs' x]
          simp only [List.length_cons, List.length_append, List.length_singleton]
          omega
      | obj ms =>
        cases ms with
        | nil => simp [Json.serChars, Json.nodeCount, Json.nodeCountMembers, Json.serMembers]
        | cons kv ms' =>
          obtain ⟨k, v⟩ := kv
          simp only [Json.nodeCount, Json.nodeCountMembers] at hn ⊢
          have hpv := nodeCount_pos v
          have h1 := ihV v (by omega)
          have h2 := ihM ms' (by omega)
          rw [show Json.serChars (.obj ((k, v) :: ms')) =
              '{' :: (Json.serMembers ((k, v) :: ms') ++ ['}']) from rfl]
          rw [serMembers_eq_tail ms' k v]
          simp only [List.length_cons, List.length_append, List.length_singleton]
          omega
    · intro xs hn
      cases xs with
      | nil => simp [Json.nodeCountList, serTailElems]
      | cons x xs' =>
        simp only [Json.nodeCountList] at hn ⊢
        have hpx := nodeCount_pos x
        have h1 := ihV x (by omega)
        have h2 := ihE xs' (by omega)
        rw [show serTailElems (x :: xs') = ',' :: ' ' :: (Json.serChars x ++ serTailElems xs')
          from rfl]
        simp only [List.length_cons, List.length_append]
        omega
    · intro ms hn
      cases ms with
      | nil => simp [Json.nodeCountMembers, serTailMembers]
      | cons kv ms' =>
        obtain ⟨k, v⟩ := kv
        simp only [Json.nodeCountMembers] at hn ⊢
        have hpv := nodeCount_pos v
        have h1 := ihV v (by omega)
        have h2 := ihM ms' (by omega)
        rw [show serTailMembers ((k, v) :: ms') =
            ',' :: ' ' :: '"' :: (escapeChars k.data ++ ['"', ':', ' '])
              ++ Json.serChars v ++ serTailMembers ms' from rfl]
        simp only [List.length_cons, List.length_append, List.length_singleton]
        omega

/-- Round trip: parsing the serialization of a well-formed JSON value
recovers it exactly. -/
theorem parse_serialize (j : Json) (hwf : Json.wfB j = true) :
    Json.parse (Json.serialize j) = some j := by
  have hlen : Json.nodeCount j ≤ (Json.serChars j).length + 1 := by
    have h1 := (nodeCount_le_serLen_all j.nodeCount).1 j (le_refl _)
    omega
  have h := (parse_ser_all ((Json.serChars j).length + 1)).1 j [] hwf hlen rfl
  rw [List.append_nil] at h
  show (match parseVal ((Json.serChars j).length + 1) (Json.serChars j) with
        | some (j', rest) => if skipWs rest = [] then some j' else none
        | none => none) = some j
  rw [h]
  simp [skipWs]

theorem dictInsert_keys (m : List (String × Json)) (k : String) (v : Json) :
    (dictInsert m k v).map Prod.fst =
      if m.any (fun p => p.1 == k) then m.map Prod.fst else m.map Prod.fst ++ [k] := by
  unfold dictInsert
  by_cases hb : m.any (fun p => p.1 == k) = true
  · simp only [hb, if_true, List.map_map]
    refine List.map_congr_left ?_
    intro p _
    by_cases hp : p.1 = k
    · simp [hp]
    · simp [hp]
  · have hb2 : m.any (fun p => p.1 == k) = false := Bool.eq_false_iff.mpr hb
    simp [hb2]

theorem dictInsert_keys_nodup (m : List (String × Json)) (k : String) (v : Json)
    (h : (m.map Prod.fst).Nodup) : ((dictInsert m k v).map Prod.fst).Nodup := by
  rw [dictInsert_keys]
  by_cases hb : m.any (fun p => p.1 == k) = true
  · simpa [hb] using h
  · have hb2 : m.any (fun p => p.1 == k) = false := Bool.eq_false_iff.mpr hb
    have hk : k ∉ m.map Prod.fst := (any_key_false_iff m k).mp hb2
    rw [hb2]
    simp only [Bool.false_eq_true, if_false, List.nodup_append, List.nodup_cons]
    refine ⟨h, by simp, ?_⟩
    intro a ha hmem
    rw [List.mem_singleton] at hmem
    subst hmem
    exact hk ha

theorem mem_dictInsert (m : List (String × Json)) (k : String) (v : Json) (kv : String × Json)
    (h : kv ∈ dictInsert m k v) : kv ∈ m ∨ kv = (k, v) := by
  unfold dictInsert at h
  by_cases hb : m.any (fun p => p.1 == k) = true
  · rw [hb] at h
    simp only [if_true, List.mem_map] at h
    obtain ⟨p, hp, hpe⟩ := h
    by_cases hpk : p.1 = k
    · rw [if_pos (beq_iff_eq.mpr hpk)] at hpe
      exact Or.inr hpe.symm
    · rw [if_neg (fun hc => hpk (beq_iff_eq.mp hc))] at hpe
      exact Or.inl (hpe ▸ hp)
  · have hb2 : m.any (fun p => p.1 == k) = false := Bool.eq_false_iff.mpr hb
    rw [hb2] at h
    simp only [Bool.false_eq_true, if_false, List.mem_append, List.mem_singleton] at h
    exact h

theorem mem_foldl_dictInsert : ∀ (raw acc : List (String × Json)) (kv : String × Json),
    kv ∈ raw.foldl (fun m p => dictInsert m p.1 p.2) acc → kv ∈ acc ∨ kv ∈ raw := by
  intro raw
  induction raw with
  | nil => intro acc kv h; exact Or.inl (by simpa using h)
  | cons p raw' ih =>
    intro acc kv h
    rw [List.foldl_cons] at h
    rcases ih (dictInsert acc p.1 p.2) kv h with h2 | h2
    · rcases mem_dictInsert acc p.1 p.2 kv h2 with h3 | h3
      · exact Or.inl h3
      · exact Or.inr (by simp [h3])
    · exact Or.inr (List.mem_cons_of_mem p h2)

theorem foldl_dictInsert_keys_nodup : ∀ (raw acc : List (String × Json)),
    (acc.map Prod.fst).Nodup →
    ((raw.foldl (fun m p => dictInsert m p.1 p.2) acc).map Prod.fst).Nodup := by
  intro raw
  induction raw with
  | nil => intro acc h; simpa using h
  | cons p raw' ih =>
    intro acc h
    rw [List.foldl_cons]
    exact ih (dictInsert acc p.1 p.2) (dictInsert_keys_nodup acc p.1 p.2 h)

theorem dedupeMembers_keys_nodup (raw : List (String × Json)) :
    nodupKeysB ((dedupeMembers raw).map Prod.fst) = true := by
  rw [nodupKeysB_iff]
  exact foldl_dictInsert_keys_nodup raw [] (by simp)

theorem wfMembersB_iff (l : List (String × Json)) :
    Json.wfMembersB l = true ↔ ∀ kv ∈ l, Json.wfB kv.2 = true := by
  induction l with
  | nil => simp [Json.wfMembersB]
  | cons kv l' ih =>
    obtain ⟨k, v⟩ := kv
    simp [Json.wfMembersB, Bool.and_eq_true, ih]

theorem wfListB_iff (l : List Json) :
    Json.wfListB l = true ↔ ∀ x ∈ l, Json.wfB x = true := by
  induction l with
  | nil => simp [Json.wfListB]
  | cons x l' ih => simp [Json.wfListB, Bool.and_eq_true, ih]

theorem dedupeMembers_wf (raw : List (String × Json))
    (h : ∀ kv ∈ raw, Json.wfB kv.2 = true) :
    Json.wfB (.obj (dedupeMembers raw)) = true := by
  simp only [Json.wfB, Bool.and_eq_true]
  refine ⟨dedupeMembers_keys_nodup raw, ?_⟩
  rw [wfMembersB_iff]
  intro kv hkv
  rcases mem_foldl_dictInsert raw [] kv hkv with h2 | h2
  · simp at h2
  · exact h kv h2

theorem parse_wf_all : ∀ f : Nat,
    (∀ cs j r, parseVal f cs = some (j, r) → Json.wfB j = true) ∧
    (∀ cs xs r, parseElemsTail f cs = some (xs, r) → Json.wfListB xs = true) ∧
    (∀ cs ms r, parseMembersTail f cs = some (ms, r) → Json.wfMembersB ms = true) := by
  intro f
  induction f with
  | zero =>
    refine ⟨?_, ?_, ?_⟩ <;>
      (intro cs a r h; simp [parseVal, parseElemsTail, parseMembersTail] at h)
  | succ g ih =>
    obtain ⟨ihV, ihE, ihM⟩ := ih
    refine ⟨?_, ?_, ?_⟩ <;> intro cs a r h <;>
      simp only [parseVal, parseElemsTail, parseMembersTail] at h <;>
      (repeat' split at h) <;>
      first
      | exact Option.noConfusion h
      | (rw [Option.some.injEq, Prod.mk.injEq] at h
         obtain ⟨h2, h3⟩ := h
         subst h2
         first
         | rfl
         | (apply dedupeMembers_wf
            intro kv hkv
            rcases List.mem_cons.mp hkv with hh | hh
            · subst hh
              exact ihV _ _ _ (by assumption)
            · exact (wfMembersB_iff _).mp (ihM _ _ _ (by assumption)) kv hh)
         | (simp only [Json.wfB, Json.wfListB, Bool.and_eq_true]
            exact ⟨ihV _ _ _ (by assumption), ihE _ _ _ (by assumption)⟩)
         | (simp only [Json.wfMembersB, Bool.and_eq_true]
            exact ⟨ihV _ _ _ (by assumption), ihM _ _ _ (by assumption)⟩))

/-- Values produced by the parser are well-formed. -/
theorem parse_wf (s : String) (j : Json) (h : Json.parse s = some j) :
    Json.wfB j = true := by
  unfold Json.parse at h
  split at h
  · rename_i j' rest heq
    split at h
    · rw [Option.some.injEq] at h
      subst h
      exact (parse_wf_all _).1 _ _ _ heq
    · exact Option.noConfusion h
  · exact Option.noConfusion h

theorem lookup_append_left {β : Type} (k : String) (l₁ l₂ : List (String × β)) (v : β)
    (h : List.lookup k l₁ = some v) : List.lookup k (l₁ ++ l₂) = some v := by
  induction l₁ with
  | nil => simp [List.lookup] at h
  | cons p l' ih =>
    obtain ⟨a, b⟩ := p
    rw [List.cons_append]
    rw [List.lookup_cons] at h ⊢
    by_cases hak : (k == a) = true
    · simpa [hak] using h
    · rw [Bool.eq_false_iff.mpr hak] at h ⊢
      exact ih h

theorem successFields_spec (m : List (String × Json)) (now : Int)
    (him : List.lookup "imdata" m = none ∨ ∃ xs, List.lookup "imdata" m = some (Json.arr xs)) :
    ∃ fs, successFields (Json.obj m) now = .ok fs ∧
      nodupKeysB (fs.map Prod.fst) = true ∧
      List.lookup "status" fs = some "success" ∧
      List.lookup "json_data" fs = some (Json.serialize (Json.obj m)) ∧
      (∀ xs, List.lookup "imdata" m = some (Json.arr xs) →
        List.lookup "record_count" fs = some (natToString xs.length)) ∧
      (∀ tc, List.lookup "totalCount" m = some tc →
        List.lookup "total_count" fs = some (Json.pyStr tc)) := by
  rcases him with him | ⟨xs, him⟩
  · cases htc : List.lookup "totalCount" m with
    | none =>
      refine ⟨[("json_data", (Json.obj m).serialize), ("status", "success"),
          ("timestamp", intToString now)],
        by simp [successFields, pyIn, pyGetItem, him, htc, Bind.bind, Except.bind,
          Pure.pure, Except.pure], ?_, ?_, ?_, ?_, ?_⟩
      · rfl
      · rfl
      · rfl
      · intro xs hxs; rw [him] at hxs; exact Option.noConfusion hxs
      · intro tc htc2; exact Option.noConfusion htc2
    | some tc =>
      refine ⟨[("json_data", (Json.obj m).serialize), ("status", "success"),
          ("timestamp", intToString now), ("total_count", tc.pyStr)],
        by simp [successFields, pyIn, pyGetItem, him, htc, Bind.bind, Except.bind,
          Pure.pure, Except.pure], ?_, ?_, ?_, ?_, ?_⟩
      · rfl
      · rfl
      · rfl
      · intro xs hxs; rw [him] at hxs; exact Option.noConfusion hxs
      · intro tc2 htc2
        rw [Option.some.injEq] at htc2
        subst htc2
        rfl
  · cases htc : List.lookup "totalCount" m with
    | none =>
      refine ⟨[("json_data", (Json.obj m).serialize), ("status", "success"),
          ("timestamp", intToString now), ("record_count", natToString xs.length)],
        by simp [successFields, pyIn, pyGetItem, pyLen, him, htc, Bind.bind, Except.bind,
          Pure.pure, Except.pure], ?_, ?_, ?_, ?_, ?_⟩
      · rfl
      · rfl
      · rfl
      · intro xs2 hxs
        rw [him] at hxs
        rw [Option.some.injEq, Json.arr.injEq] at hxs
        subst hxs
        rfl
      · intro tc htc2; exact Option.noConfusion htc2
    | some tc =>
      refine ⟨[("json_data", (Json.obj m).serialize), ("status", "success"),
          ("timestamp", intToString now), ("record_count", natToString xs.length),
          ("total_count", tc.pyStr)],
        by simp [successFields, pyIn, pyGetItem, pyLen, him, htc, Bind.bind, Except.bind,
          Pure.pure, Except.pure], ?_, ?_, ?_, ?_, ?_⟩
      · rfl
      · rfl
      · rfl
      · intro xs2 hxs
        rw [him] at hxs
        rw [Option.some.injEq, Json.arr.injEq] at hxs
        subst hxs
        rfl
      · intro tc2 htc2
        rw [Option.some.injEq] at htc2
        subst htc2
        rfl

theorem mainCore_happy (input : List (String × Json)) (oracle : NetOracle) (now : Int)
    (u ur : String) (uv pv : Json) (ap : String) (tv : Json) (t : Int) (qp : Json)
    (lr qr : HttpResp) (loginJson tok result : Json)
    (hu : List.lookup "apic_url" input = some (Json.str u))
    (hr : pyRstrip (Json.str u) '/' = .ok ur)
    (hn : List.lookup "username" input = some uv)
    (hp : List.lookup "password" input = some pv)
    (ha : List.lookup "api_path" input = some (Json.str ap))
    (htv : pyGetMethod (Json.obj input) "timeout" (Json.int 30) = .ok tv)
    (ht : pyInt tv = .ok t)
    (hqp : pyGetMethod (Json.obj input) "query_params" (Json.obj []) = .ok qp)
    (hlogin : oracle.login = .resp lr) (hls : lr.status < 400)
    (hlb : Json.parse lr.body = some loginJson)
    (htok : extractToken loginJson = .ok (some tok))
    (hquery : oracle.query = .resp qr) (hqs : qr.status < 400)
    (hqb : Json.parse qr.body = some result) :
    mainCore (Json.obj input) oracle now =
      ((match successFields result now with
        | .ok fs => Except.ok fs
        | .error e => Except.error (Exc.py e)),
       some { url := urljoin ur "/api/aaaLogin.json", timeoutArg := none, params := none,
              jsonBody := some (aaaLoginPayload uv pv),
              sessionTimeoutAttr := t, verify := false, headers := [] },
       some { url := urljoin ur (normalizeApiPath ap), timeoutArg := none, params := some qp,
              jsonBody := none, sessionTimeoutAttr := t, verify := false,
              headers := [("Cookie", "APIC-cookie=" ++ Json.pyStr tok)] }) := by
  have hnot1 : ¬(lr.status ≥ 400) := by omega
  have hnot2 : ¬(qr.status ≥ 400) := by omega
  simp only [mainCore, checkRequiredAux, requiredParams, pyIn, pyGetItem,
    authenticate_aci, query_aci_api, hu, hr, hn, hp, ha, htv, ht, hqp, hlogin, hquery,
    hlb, hqb, htok, hnot1, hnot2, if_false, Option.isSome_some, if_true]
  cases hsf : successFields result now with
  | ok fs => rfl
  | error e => rfl

theorem successFields_ok_spec (result : Json) (now : Int) (fs : List (String × String))
    (h : successFields result now = .ok fs) :
    nodupKeysB (fs.map Prod.fst) = true ∧ List.lookup "status" fs = some "success" := by
  unfold successFields at h
  simp only [Bind.bind, Except.bind, Pure.pure, Except.pure] at h
  repeat' split at h
  all_goals first
    | exact Except.noConfusion h
    | (rw [Except.ok.injEq] at h
       subst h
       exact ⟨rfl, rfl⟩)

theorem mainCore_ok_spec (input : Json) (oracle : NetOracle) (now : Int)
    (fs : List (String × String)) (lc qc : Option CallRecord)
    (h : mainCore input oracle now = (.ok fs, lc, qc)) :
    nodupKeysB (fs.map Prod.fst) = true ∧ List.lookup "status" fs = some "success" := by
  unfold mainCore at h
  repeat' split at h
  all_goals first
    | (rw [Prod.mk.injEq, Prod.mk.injEq, Except.ok.injEq] at h
       obtain ⟨h1, _⟩ := h
       subst h1
       exact successFields_ok_spec _ _ _ (by assumption))
    | exact absurd h (by simp)

theorem envelopeJson_wf (fields : List (String × String))
    (h : nodupKeysB (fields.map Prod.fst) = true) : Json.wfB (envelopeJson fields) = true := by
  simp only [envelopeJson, Json.wfB, Bool.and_eq_true]
  constructor
  · rw [List.map_map]
    exact h
  · rw [wfMembersB_iff]
    intro kv hkv
    rw [List.mem_map] at hkv
    obtain ⟨a, _, ha⟩ := hkv
    subst ha
    rfl

theorem finishRun_c1 (core : Except Exc (List (String × String)) × Option CallRecord × Option CallRecord)
    (now : Int)
    (hok : ∀ fs lc qc, core = (.ok fs, lc, qc) →
      nodupKeysB (fs.map Prod.fst) = true ∧ List.lookup "status" fs = some "success") :
    (finishRun core now).stdout = [Json.serialize (envelopeJson (finishRun core now).output)] ∧
    Json.parse (Json.serialize (envelopeJson (finishRun core now).output)) =
      some (envelopeJson (finishRun core now).output) ∧
    ((finishRun core now).exitCode = 0 ∨ (finishRun core now).exitCode = 1) ∧
    ((finishRun core now).exitCode = 0 ↔
      List.lookup "status" (finishRun core now).output = some "success") := by
  rcases core with ⟨exc, lc, qc⟩
  cases exc with
  | error e =>
    refine ⟨rfl, ?_, Or.inr rfl, ?_⟩
    · exact parse_serialize _ (envelopeJson_wf _ rfl)
    · simp [finishRun, errorFields, List.lookup]
  | ok fs =>
    obtain ⟨hnd, hst⟩ := hok fs lc qc rfl
    refine ⟨rfl, ?_, Or.inl rfl, ?_⟩
    · exact parse_serialize _ (envelopeJson_wf fs hnd)
    · simpa [finishRun] using hst

/-- C1: for every input (well-formed or not) and every outcome of the two
network stages, the program writes exactly one well-formed JSON object to
standard output (the single printed line parses back as a JSON object), and
terminates with exit code 0 on success and exit code 1 in every error case
(the exit code is 0 exactly when the envelope's status field is "success",
and is 1 otherwise). -/
theorem c1_single_json_output_and_exit_codes (stdin : String) (oracle : NetOracle) (now : Int) :
    (mainRun stdin oracle now).stdout =
      [Json.serialize (envelopeJson (mainRun stdin oracle now).output)] ∧
    Json.parse (Json.serialize (envelopeJson (mainRun stdin oracle now).output)) =
      some (envelopeJson (mainRun stdin oracle now).output) ∧
    ((mainRun stdin oracle now).exitCode = 0 ∨ (mainRun stdin oracle now).exitCode = 1) ∧
    ((mainRun stdin oracle now).exitCode = 0 ↔
      List.lookup "status" (mainRun stdin oracle now).output = some "success") := by
  unfold mainRun
  cases hp : Json.parse stdin with
  | none =>
    exact finishRun_c1 _ now (by intro fs lc qc h; exact absurd h (by simp))
  | some input =>
    exact finishRun_c1 _ now (fun fs lc qc h => mainCore_ok_spec input oracle now fs lc qc h)

theorem isPrefixOf_append_self (l r : List Char) : l.isPrefixOf (l ++ r) = true :=
  List.isPrefixOf_iff_prefix.mpr (List.prefix_append l r)

/-- C6: the query stage normalizes `api_path` exactly as specified: a path
already starting with "/api" is left unchanged; otherwise "/api" is
prepended when the path starts with "/" and "/api/" is prepended when it
does not; in particular "foo/bar" becomes "/api/foo/bar", "/foo/bar"
becomes "/api/foo/bar", and "/api/foo" stays "/api/foo". -/
theorem c6_path_normalization (p : String) :
    (strStartsWith p "/api" = true → normalizeApiPath p = p) ∧
    (strStartsWith p "/api" = false → strStartsWith p "/" = true →
      normalizeApiPath p = "/api" ++ p) ∧
    (strStartsWith p "/api" = false → strStartsWith p "/" = false →
      normalizeApiPath p = "/api/" ++ p) ∧
    normalizeApiPath "foo/bar" = "/api/foo/bar" ∧
    normalizeApiPath "/foo/bar" = "/api/foo/bar" ∧
    normalizeApiPath "/api/foo" = "/api/foo" := by
  refine ⟨?_, ?_, ?_, by rfl, by rfl, by rfl⟩
  · intro h1
    simp only [strStartsWith] at h1
    simp [normalizeApiPath, h1]
  · intro h1 h2
    simp only [strStartsWith] at h1 h2
    simp [normalizeApiPath, h1, h2]
  · intro h1 h2
    simp only [strStartsWith] at h1 h2
    simp [normalizeApiPath, h1, h2]

/-- Witness for C6 at the three concrete example paths. -/
theorem c6_path_normalization_witness :
    normalizeApiPath "/api/foo" = "/api/foo" ∧
    normalizeApiPath "/foo/bar" = "/api/foo/bar" ∧
    normalizeApiPath "foo/bar" = "/api/foo/bar" :=
  ⟨(c6_path_normalization "/api/foo").1 (by decide),
   (c6_path_normalization "/foo/bar").2.1 (by decide) (by decide),
   (c6_path_normalization "foo/bar").2.2.1 (by decide) (by decide)⟩

/-- C7 counterexample: the caller-supplied path "/apifoo" is left unchanged
by the normalization, and the result neither equals "/api" nor starts with
"/api/", so it does not lie under the vendor API namespace. -/
theorem c7_counterexample :
    normalizeApiPath "/apifoo" = "/apifoo" ∧
    ¬("/apifoo" = "/api" ∨ strStartsWith "/apifoo" "/api/" = true) := by
  refine ⟨by rfl, ?_⟩
  decide

/-- C7 (amended): for every caller-supplied `api_path`, the normalized path
starts with the literal prefix "/api"; it need not equal "/api" or lie
under "/api/" (a path such as "/apifoo" is kept verbatim). -/
theorem c7_amended_api_prefix (p : String) :
    strStartsWith (normalizeApiPath p) "/api" = true := by
  unfold normalizeApiPath strStartsWith
  by_cases h1 : ("/api".data.isPrefixOf p.data) = true
  · rw [if_pos h1]
    exact h1
  · rw [if_neg h1]
    by_cases h2 : ("/".data.isPrefixOf p.data) = true
    · rw [if_pos h2, String.data_append]
      exact isPrefixOf_append_self _ _
    · rw [if_neg h2, String.data_append]
      rw [show ("/api/" : String).data = "/api".data ++ ['/'] from rfl, List.append_assoc]
      exact isPrefixOf_append_self _ _

theorem mainRun_eq_some (stdin : String) (input : Json) (oracle : NetOracle) (now : Int)
    (h : Json.parse stdin = some input) :
    mainRun stdin oracle now = finishRun (mainCore input oracle now) now := by
  unfold mainRun
  rw [h]

theorem checkRequired_missing (input : List (String × Json)) : ∀ ks : List String,
    (∃ k ∈ ks, List.lookup k input = none) →
    ∃ k, k ∈ ks ∧ List.lookup k input = none ∧
      checkRequiredAux (Json.obj input) ks =
        .error (.aci ("Missing required parameter: " ++ k)) := by
  intro ks
  induction ks with
  | nil => rintro ⟨k, hk, _⟩; exact absurd hk (List.not_mem_nil k)
  | cons p rest ih =>
    rintro ⟨k, hk, hnone⟩
    cases hp : List.lookup p input with
    | none =>
      refine ⟨p, List.mem_cons_self p rest, hp, ?_⟩
      simp [checkRequiredAux, pyIn, hp]
    | some v =>
      have hk2 : k ∈ rest := by
        rcases List.mem_cons.mp hk with h | h
        · subst h; rw [hp] at hnone; exact Option.noConfusion hnone
        · exact h
      obtain ⟨k2, hk2m, hk2n, hrec⟩ := ih ⟨k, hk2, hnone⟩
      refine ⟨k2, List.mem_cons_of_mem p hk2m, hk2n, ?_⟩
      simp [checkRequiredAux, pyIn, hp, hrec]

/-- C3: for every input JSON object lacking at least one of the keys
`apic_url`, `username`, `password`, `api_path`, the program emits the error
envelope with status "error" and `json_data` the literal empty object,
names a missing key in `error_message`, exits with code 1, and attempts no
network call in either stage. -/
theorem c3_missing_parameter (stdin : String) (input : List (String × Json))
    (oracle : NetOracle) (now : Int)
    (hstdin : Json.parse stdin = some (Json.obj input))
    (hmiss : ∃ k ∈ requiredParams, List.lookup k input = none) :
    (mainRun stdin oracle now).exitCode = 1 ∧
    List.lookup "status" (mainRun stdin oracle now).output = some "error" ∧
    List.lookup "json_data" (mainRun stdin oracle now).output = some "\x7b\x7d" ∧
    (mainRun stdin oracle now).loginCall = none ∧
    (mainRun stdin oracle now).queryCall = none ∧
    ∃ k, k ∈ requiredParams ∧ List.lookup k input = none ∧
      List.lookup "error_message" (mainRun stdin oracle now).output =
        some ("Missing required parameter: " ++ k) := by
  obtain ⟨k, hkm, hkn, hchk⟩ := checkRequired_missing input requiredParams hmiss
  have hcore : mainCore (Json.obj input) oracle now =
      (.error (.aci ("Missing required parameter: " ++ k)), none, none) := by
    unfold mainCore
    rw [hchk]
  rw [mainRun_eq_some stdin (Json.obj input) oracle now hstdin, hcore]
  exact ⟨rfl, rfl, rfl, rfl, rfl, k, hkm, hkn, rfl⟩

/-- Witness for C3: an input providing only `username` is rejected with the
first missing key named, exit code 1, and no network call. -/
theorem c3_missing_parameter_witness :
    (mainRun (Json.serialize (Json.obj [("username", Json.str "u")]))
        { login := .netErr "unreachable", query := .netErr "unreachable" } 7).exitCode = 1 ∧
    (mainRun (Json.serialize (Json.obj [("username", Json.str "u")]))
        { login := .netErr "unreachable", query := .netErr "unreachable" } 7).loginCall = none := by
  have h := c3_missing_parameter (Json.serialize (Json.obj [("username", Json.str "u")]))
    [("username", Json.str "u")]
    { login := .netErr "unreachable", query := .netErr "unreachable" } 7
    (by rfl) ⟨"apic_url", by decide, by rfl⟩
  exact ⟨h.1, h.2.2.2.1⟩

theorem mainCore_reach_auth (input : List (String × Json)) (oracle : NetOracle) (now : Int)
    (u ur : String) (uv pv apv tv qp : Json) (t : Int)
    (hu : List.lookup "apic_url" input = some (Json.str u))
    (hr : pyRstrip (Json.str u) '/' = .ok ur)
    (hn : List.lookup "username" input = some uv)
    (hp : List.lookup "password" input = some pv)
    (ha : List.lookup "api_path" input = some apv)
    (htv : pyGetMethod (Json.obj input) "timeout" (Json.int 30) = .ok tv)
    (ht : pyInt tv = .ok t)
    (hqp : pyGetMethod (Json.obj input) "query_params" (Json.obj []) = .ok qp) :
    mainCore (Json.obj input) oracle now =
      (match authenticate_aci oracle.login ur uv pv t with
       | (.error e, lrec) => (.error e, some lrec, none)
       | (.ok session, lrec) =>
         match query_aci_api oracle.query session ur apv qp with
         | (.error e, qrec) => (.error e, some lrec, qrec)
         | (.ok result, qrec) =>
           match successFields result now with
           | .error e => (.error (.py e), some lrec, qrec)
           | .ok fs => (.ok fs, some lrec, qrec)) := by
  simp only [mainCore, checkRequiredAux, requiredParams, pyIn, pyGetItem,
    hu, hr, hn, hp, ha, htv, ht, hqp, Option.isSome_some, if_true]

theorem authenticate_aci_success (outcome : StageOutcome) (lr : HttpResp) (apic_url : String)
    (uv pv : Json) (t : Int) (loginJson tok : Json)
    (hlogin : outcome = .resp lr) (hls : lr.status < 400)
    (hlb : Json.parse lr.body = some loginJson)
    (htok : extractToken loginJson = .ok (some tok)) :
    authenticate_aci outcome apic_url uv pv t =
      (.ok { verify := false, timeoutAttr := t,
             headers := [("Cookie", "APIC-cookie=" ++ Json.pyStr tok)] },
       { url := urljoin apic_url "/api/aaaLogin.json", timeoutArg := none, params := none,
         jsonBody := some (aaaLoginPayload uv pv), sessionTimeoutAttr := t, verify := false,
         headers := [] }) := by
  subst hlogin
  have hnot : ¬(lr.status ≥ 400) := by omega
  simp [authenticate_aci, hnot, hlb, htok]

theorem authenticate_aci_no_token (outcome : StageOutcome) (lr : HttpResp) (apic_url : String)
    (uv pv : Json) (t : Int) (loginJson : Json)
    (hlogin : outcome = .resp lr) (hls : lr.status < 400)
    (hlb : Json.parse lr.body = some loginJson)
    (hex : extractToken loginJson = .ok none) :
    authenticate_aci outcome apic_url uv pv t =
      (.error (.aci "Authentication failed - no token received"),
       { url := urljoin apic_url "/api/aaaLogin.json", timeoutArg := none, params := none,
         jsonBody := some (aaaLoginPayload uv pv), sessionTimeoutAttr := t, verify := false,
         headers := [] }) := by
  subst hlogin
  have hnot : ¬(lr.status ≥ 400) := by omega
  simp [authenticate_aci, hnot, hlb, hex]

theorem authenticate_aci_invalid_json (outcome : StageOutcome) (lr : HttpResp)
    (apic_url : String) (uv pv : Json) (t : Int)
    (hlogin : outcome = .resp lr) (hls : lr.status < 400)
    (hlb : Json.parse lr.body = none) :
    authenticate_aci outcome apic_url uv pv t =
      (.error (.aci ("Invalid JSON response during authentication: " ++ jsonDecodeDetail)),
       { url := urljoin apic_url "/api/aaaLogin.json", timeoutArg := none, params := none,
         jsonBody := some (aaaLoginPayload uv pv), sessionTimeoutAttr := t, verify := false,
         headers := [] }) := by
  subst hlogin
  have hnot : ¬(lr.status ≥ 400) := by omega
  simp [authenticate_aci, hnot, hlb]

theorem query_aci_api_success (outcome : StageOutcome) (qr : HttpResp) (session : Session)
    (apic_url ap : String) (qp result : Json)
    (hq : outcome = .resp qr) (hqs : qr.status < 400)
    (hqb : Json.parse qr.body = some result) :
    query_aci_api outcome session apic_url (Json.str ap) qp =
      (.ok result,
       some { url := urljoin apic_url (normalizeApiPath ap), timeoutArg := none,
              params := some qp, jsonBody := none, sessionTimeoutAttr := session.timeoutAttr,
              verify := session.verify, headers := session.headers }) := by
  subst hq
  have hnot : ¬(qr.status ≥ 400) := by omega
  simp [query_aci_api, hnot, hqb]

theorem query_aci_api_invalid_json (outcome : StageOutcome) (qr : HttpResp) (session : Session)
    (apic_url ap : String) (qp : Json)
    (hq : outcome = .resp qr) (hqs : qr.status < 400)
    (hqb : Json.parse qr.body = none) :
    query_aci_api outcome session apic_url (Json.str ap) qp =
      (.error (.aci ("Invalid JSON response from API: " ++ jsonDecodeDetail)),
       some { url := urljoin apic_url (normalizeApiPath ap), timeoutArg := none,
              params := some qp, jsonBody := none, sessionTimeoutAttr := session.timeoutAttr,
              verify := session.verify, headers := session.headers }) := by
  subst hq
  have hnot : ¬(qr.status ≥ 400) := by omega
  simp [query_aci_api, hnot, hqb]

theorem extractToken_none (m : List (String × Json))
    (hshape : List.lookup "imdata" m = none ∨ List.lookup "imdata" m = some (Json.arr []) ∨
      ∃ e rest, List.lookup "imdata" m = some (Json.arr (Json.obj e :: rest)) ∧
        noTruthyTokenB e = true) :
    extractToken (Json.obj m) = .ok none := by
  rcases hshape with h | h | ⟨e, rest, h, hnt⟩
  · simp [extractToken, pyIn, h, Bind.bind, Except.bind, Pure.pure, Except.pure]
  · simp [extractToken, pyIn, pyGetItem, pyLen, h, Bind.bind, Except.bind, Pure.pure,
      Except.pure]
  · simp only [extractToken, pyIn, pyGetItem, pyLen, pyIndexZero, h, Option.isSome_some,
      Bind.bind, Except.bind, Pure.pure, Except.pure]
    cases ha : List.lookup "aaaLogin" e with
    | none => simp [pyGetMethod, ha, pyTruthy]
    | some a =>
      cases a with
      | obj a2 =>
        cases hb : List.lookup "attributes" a2 with
        | none => simp [pyGetMethod, ha, hb, pyTruthy]
        | some b =>
          cases b with
          | obj b2 =>
            cases htk : List.lookup "token" b2 with
            | none => simp [pyGetMethod, ha, hb, htk, pyTruthy]
            | some tokv =>
              have hf : pyTruthy tokv = false := by
                have h2 := hnt
                simp [noTruthyTokenB, ha, hb, htk] at h2
                exact h2
              simp [pyGetMethod, ha, hb, htk, hf]
          | null => exact absurd hnt (by simp [noTruthyTokenB, ha, hb])
          | bool b3 => exact absurd hnt (by simp [noTruthyTokenB, ha, hb])
          | int n => exact absurd hnt (by simp [noTruthyTokenB, ha, hb])
          | str s => exact absurd hnt (by simp [noTruthyTokenB, ha, hb])
          | arr xs => exact absurd hnt (by simp [noTruthyTokenB, ha, hb])
      | null => exact absurd hnt (by simp [noTruthyTokenB, ha])
      | bool b3 => exact absurd hnt (by simp [noTruthyTokenB, ha])
      | int n => exact absurd hnt (by simp [noTruthyTokenB, ha])
      | str s => exact absurd hnt (by simp [noTruthyTokenB, ha])
      | arr xs => exact absurd hnt (by simp [noTruthyTokenB, ha])


/-- C2 counterexample: both network stages succeed (the query returns the
valid JSON body "5"), yet the emitted envelope has status "error" with exit
code 1, because the membership test `'imdata' in result` raises a
`TypeError` on an integer result, so the claim's unconditional "status
success whenever both stages succeed" is false. -/
theorem c2_counterexample :
    Json.parse "5" = some (Json.int 5) ∧
    ((mainRun okStdin { login := respOf 200 goodLoginBody, query := respOf 200 "5" } 0).loginCall.isSome,
     (mainRun okStdin { login := respOf 200 goodLoginBody, query := respOf 200 "5" } 0).queryCall.isSome,
     (mainRun okStdin { login := respOf 200 goodLoginBody, query := respOf 200 "5" } 0).exitCode,
     List.lookup "status"
       (mainRun okStdin { login := respOf 200 goodLoginBody, query := respOf 200 "5" } 0).output,
     List.lookup "error_message"
       (mainRun okStdin { login := respOf 200 goodLoginBody, query := respOf 200 "5" } 0).output) =
    (true, true, 1, some "error",
     some "Unexpected error: argument of type 'int' is not iterable") :=
  ⟨rfl, rfl⟩

/-- C2 (amended): when both stages succeed and the query result is a JSON
object whose `imdata` member, when present, is an array, the envelope has
status "success" and exit code 0, `json_data` is the serialized result and
deserializes back to exactly the parsed query response, `record_count` is
the decimal string of the length of the `imdata` array whenever that key is
present, and `total_count` is the stringified `totalCount` whenever that
key is present. Results of other shapes make the formatting step raise,
producing the "Unexpected error" envelope instead, as the counterexample
shows. -/
theorem c2_success_envelope (stdin : String) (input : List (String × Json))
    (oracle : NetOracle) (now : Int) (u ur : String) (uv pv : Json) (ap : String)
    (tv : Json) (t : Int) (qp : Json) (lr qr : HttpResp) (loginJson tok : Json)
    (m : List (String × Json))
    (hstdin : Json.parse stdin = some (Json.obj input))
    (hu : List.lookup "apic_url" input = some (Json.str u))
    (hr : pyRstrip (Json.str u) '/' = .ok ur)
    (hn : List.lookup "username" input = some uv)
    (hp : List.lookup "password" input = some pv)
    (ha : List.lookup "api_path" input = some (Json.str ap))
    (htv : pyGetMethod (Json.obj input) "timeout" (Json.int 30) = .ok tv)
    (ht : pyInt tv = .ok t)
    (hqp : pyGetMethod (Json.obj input) "query_params" (Json.obj []) = .ok qp)
    (hlogin : oracle.login = .resp lr) (hls : lr.status < 400)
    (hlb : Json.parse lr.body = some loginJson)
    (htok : extractToken loginJson = .ok (some tok))
    (hquery : oracle.query = .resp qr) (hqs : qr.status < 400)
    (hqb : Json.parse qr.body = some (Json.obj m))
    (him : List.lookup "imdata" m = none ∨
      ∃ xs, List.lookup "imdata" m = some (Json.arr xs)) :
    (mainRun stdin oracle now).exitCode = 0 ∧
    List.lookup "status" (mainRun stdin oracle now).output = some "success" ∧
    List.lookup "json_data" (mainRun stdin oracle now).output =
      some (Json.serialize (Json.obj m)) ∧
    Json.parse (Json.serialize (Json.obj m)) = some (Json.obj m) ∧
    (∀ xs, List.lookup "imdata" m = some (Json.arr xs) →
      List.lookup "record_count" (mainRun stdin oracle now).output =
        some (natToString xs.length)) ∧
    (∀ tc, List.lookup "totalCount" m = some tc →
      List.lookup "total_count" (mainRun stdin oracle now).output =
        some (Json.pyStr tc)) := by
  obtain ⟨fs, hsf, hnd, hst, hjd, hrc, htc⟩ := successFields_spec m now him
  have hcore := mainCore_happy input oracle now u ur uv pv ap tv t qp lr qr loginJson tok
    (Json.obj m) hu hr hn hp ha htv ht hqp hlogin hls hlb htok hquery hqs hqb
  rw [mainRun_eq_some stdin (Json.obj input) oracle now hstdin, hcore, hsf]
  exact ⟨rfl, hst, hjd, parse_serialize _ (parse_wf qr.body _ hqb), hrc, htc⟩

/-- Witness for C2 at the claim's round-trip example: for the query result
with two `imdata` records and `totalCount` "2", the output includes
`record_count` "2" and `total_count` "2" with exit code 0. -/
theorem c2_success_envelope_witness :
    List.lookup "record_count" (mainRun okStdin
      { login := respOf 200 goodLoginBody,
        query := respOf 200 (Json.serialize (Json.obj
          [("imdata", Json.arr [Json.obj [("a", Json.int 1)], Json.obj [("a", Json.int 2)]]),
           ("totalCount", Json.str "2")])) } 0).output = some "2" ∧
    List.lookup "total_count" (mainRun okStdin
      { login := respOf 200 goodLoginBody,
        query := respOf 200 (Json.serialize (Json.obj
          [("imdata", Json.arr [Json.obj [("a", Json.int 1)], Json.obj [("a", Json.int 2)]]),
           ("totalCount", Json.str "2")])) } 0).output = some "2" ∧
    (mainRun okStdin
      { login := respOf 200 goodLoginBody,
        query := respOf 200 (Json.serialize (Json.obj
          [("imdata", Json.arr [Json.obj [("a", Json.int 1)], Json.obj [("a", Json.int 2)]]),
           ("totalCount", Json.str "2")])) } 0).exitCode = 0 := by
  have h := c2_success_envelope okStdin okInput
    { login := respOf 200 goodLoginBody,
      query := respOf 200 (Json.serialize (Json.obj
        [("imdata", Json.arr [Json.obj [("a", Json.int 1)], Json.obj [("a", Json.int 2)]]),
         ("totalCount", Json.str "2")])) } 0
    "https://a" "https://a" (Json.str "u") (Json.str "p") "x" (Json.int 30) 30 (Json.obj [])
    { status := 200, body := goodLoginBody }
    { status := 200, body := Json.serialize (Json.obj
        [("imdata", Json.arr [Json.obj [("a", Json.int 1)], Json.obj [("a", Json.int 2)]]),
         ("totalCount", Json.str "2")]) }
    (Json.obj [("imdata", Json.arr [Json.obj [("aaaLogin",
      Json.obj [("attributes", Json.obj [("token", Json.str "T")])])]])])
    (Json.str "T")
    [("imdata", Json.arr [Json.obj [("a", Json.int 1)], Json.obj [("a", Json.int 2)]]),
     ("totalCount", Json.str "2")]
    (by rfl) (by rfl) (by rfl) (by rfl) (by rfl) (by rfl) (by rfl) (by rfl) (by rfl)
    (by rfl) (by decide) (by rfl) (by rfl) (by rfl) (by decide) (by rfl)
    (Or.inr ⟨[Json.obj [("a", Json.int 1)], Json.obj [("a", Json.int 2)]], by rfl⟩)
  refine ⟨?_, ?_, h.1⟩
  · exact h.2.2.2.2.1 [Json.obj [("a", Json.int 1)], Json.obj [("a", Json.int 2)]] (by rfl)
  · exact h.2.2.2.2.2 (Json.str "2") (by rfl)

/-- C4 counterexample: with `username` present but null, the request is not
rejected before network activity: the login POST is attempted (carrying the
null as the name field) and, with a cooperative backend, the whole run even
succeeds with exit code 0. -/
theorem c4_counterexample :
    ((mainRun (Json.serialize (Json.obj [("apic_url", Json.str "https://a"),
        ("username", Json.null), ("password", Json.str "p"), ("api_path", Json.str "x")]))
      { login := respOf 200 goodLoginBody, query := respOf 200 "[]" } 0).loginCall.isSome,
     (mainRun (Json.serialize (Json.obj [("apic_url", Json.str "https://a"),
        ("username", Json.null), ("password", Json.str "p"), ("api_path", Json.str "x")]))
      { login := respOf 200 goodLoginBody, query := respOf 200 "[]" } 0).exitCode,
     (mainRun (Json.serialize (Json.obj [("apic_url", Json.str "https://a"),
        ("username", Json.null), ("password", Json.str "p"), ("api_path", Json.str "x")]))
      { login := respOf 200 goodLoginBody, query := respOf 200 "[]" } 0).loginCall.map
        (fun rec => rec.jsonBody)) =
    (true, 0, some (some (aaaLoginPayload Json.null (Json.str "p")))) := rfl

/-- C4 (amended): only a null `apic_url` is rejected before any network
activity (the attribute access `.rstrip` on null raises before the login
call); when `username`, `password` or `api_path` is present but null, the
login network call is still attempted. -/
theorem c4_null_fields (stdin : String) (input : List (String × Json))
    (oracle : NetOracle) (now : Int) (av uv pv apv : Json)
    (hstdin : Json.parse stdin = some (Json.obj input))
    (h1 : List.lookup "apic_url" input = some av)
    (h2 : List.lookup "username" input = some uv)
    (h3 : List.lookup "password" input = some pv)
    (h4 : List.lookup "api_path" input = some apv) :
    (av = Json.null →
      (mainRun stdin oracle now).loginCall = none ∧
      (mainRun stdin oracle now).queryCall = none ∧
      (mainRun stdin oracle now).exitCode = 1 ∧
      List.lookup "status" (mainRun stdin oracle now).output = some "error" ∧
      List.lookup "error_message" (mainRun stdin oracle now).output =
        some "Unexpected error: 'NoneType' object has no attribute 'rstrip'") ∧
    (∀ u t, av = Json.str u →
      pyInt (match List.lookup "timeout" input with
             | some x => x
             | none => Json.int 30) = .ok t →
      (uv = Json.null ∨ pv = Json.null ∨ apv = Json.null) →
      (mainRun stdin oracle now).loginCall.isSome = true) := by
  constructor
  · intro hav
    subst hav
    have hcore : mainCore (Json.obj input) oracle now =
        (.error (.py (.attributeError "'NoneType' object has no attribute 'rstrip'")),
         none, none) := by
      simp [mainCore, checkRequiredAux, requiredParams, pyIn, pyGetItem, pyRstrip,
        pyTypeName, h1, h2, h3, h4]
    rw [mainRun_eq_some stdin (Json.obj input) oracle now hstdin, hcore]
    exact ⟨rfl, rfl, rfl, rfl, rfl⟩
  · intro u t hav ht _
    subst hav
    set ur : String := ⟨((u.data.reverse.dropWhile (fun c => c = '/')).reverse)⟩ with hur
    set tv : Json := (match List.lookup "timeout" input with
                      | some x => x
                      | none => Json.int 30) with htv0
    set qp : Json := (match List.lookup "query_params" input with
                      | some x => x
                      | none => Json.obj []) with hqp0
    have htv : pyGetMethod (Json.obj input) "timeout" (Json.int 30) = .ok tv := by
      simp [pyGetMethod, htv0]
    have hqp : pyGetMethod (Json.obj input) "query_params" (Json.obj []) = .ok qp := by
      simp [pyGetMethod, hqp0]
    have hcore := mainCore_reach_auth input oracle now u ur uv pv apv tv qp t
      h1 (by rfl) h2 h3 h4 htv ht hqp
    rw [mainRun_eq_some stdin (Json.obj input) oracle now hstdin, hcore]
    rcases hA : authenticate_aci oracle.login ur uv pv t with ⟨res, lrec⟩
    cases res with
    | error e => rfl
    | ok session =>
      show (finishRun
        (match query_aci_api oracle.query session ur apv qp with
         | (Except.error e, qrec) => (Except.error e, some lrec, qrec)
         | (Except.ok result, qrec) =>
           match successFields result now with
           | Except.error e => (Except.error (Exc.py e), some lrec, qrec)
           | Except.ok fs => (Except.ok fs, some lrec, qrec)) now).loginCall.isSome = true
      rcases hQ : query_aci_api oracle.query session ur apv qp with ⟨qres, qrec⟩
      cases qres with
      | error e => rfl
      | ok result =>
        show (finishRun
          (match successFields result now with
           | Except.error e => (Except.error (Exc.py e), some lrec, qrec)
           | Except.ok fs => (Except.ok fs, some lrec, qrec)) now).loginCall.isSome = true
        cases hs : successFields result now with
        | ok fs => rfl
        | error e => rfl

theorem c4_null_fields_witness :
    (mainRun nullUrlStdin okOracle 0).loginCall = none ∧
    (mainRun nullUrlStdin okOracle 0).exitCode = 1 ∧
    List.lookup "error_message" (mainRun nullUrlStdin okOracle 0).output =
      some "Unexpected error: 'NoneType' object has no attribute 'rstrip'" := by
  have h := (c4_null_fields nullUrlStdin nullUrlInput okOracle 0
      Json.null (Json.str "u") (Json.str "p") (Json.str "x")
      (by rfl) (by rfl) (by rfl) (by rfl) (by rfl)).1 rfl
  exact ⟨h.1, h.2.2.1, h.2.2.2.2⟩

/-- C5 counterexample: the login body "5" is valid JSON and lacks an imdata
sequence, yet the run does not report "Authentication failed - no token
received": the membership test `'imdata' in login_data` raises a `TypeError`
on the integer, which escapes `authenticate_aci` (its except clauses catch
only `RequestException` and `json.JSONDecodeError`) and lands in the generic
handler of `main` as an "Unexpected error". -/
theorem c5_counterexample :
    Json.parse "5" = some (Json.int 5) ∧
    ((mainRun okStdin { login := respOf 200 "5", query := respOf 200 "[]" } 0).loginCall.isSome,
     (mainRun okStdin { login := respOf 200 "5", query := respOf 200 "[]" } 0).queryCall,
     (mainRun okStdin { login := respOf 200 "5", query := respOf 200 "[]" } 0).exitCode,
     List.lookup "error_message"
       (mainRun okStdin { login := respOf 200 "5", query := respOf 200 "[]" } 0).output) =
    (true, none, 1,
     some "Unexpected error: argument of type 'int' is not iterable") :=
  ⟨rfl, rfl⟩

/-- C5 (amended): when the login response has a 2xx status and its body is a
JSON object in which `imdata` is absent, or is the empty array, or is an
array whose first element is an object without a truthy token at
`aaaLogin.attributes.token`, the run fails with exactly
"Authentication failed - no token received", emits the error envelope with
status "error" and exit code 1, and never invokes the query stage. Bodies
outside these shapes (a non-object body, a non-array `imdata`, a non-object
first element, ...) instead raise and produce "Unexpected error" envelopes,
so the claim's "every valid-JSON body lacking the token path" is too broad. -/
theorem c5_no_token (stdin : String) (input : List (String × Json)) (oracle : NetOracle)
    (now : Int) (u : String) (uv pv apv tv qp : Json) (t : Int) (lr : HttpResp)
    (m : List (String × Json))
    (hstdin : Json.parse stdin = some (Json.obj input))
    (h1 : List.lookup "apic_url" input = some (Json.str u))
    (h2 : List.lookup "username" input = some uv)
    (h3 : List.lookup "password" input = some pv)
    (h4 : List.lookup "api_path" input = some apv)
    (htv : pyGetMethod (Json.obj input) "timeout" (Json.int 30) = .ok tv)
    (ht : pyInt tv = .ok t)
    (hqp : pyGetMethod (Json.obj input) "query_params" (Json.obj []) = .ok qp)
    (hlogin : oracle.login = .resp lr) (hls : lr.status < 400)
    (hlb : Json.parse lr.body = some (Json.obj m))
    (hshape : List.lookup "imdata" m = none ∨ List.lookup "imdata" m = some (Json.arr []) ∨
      ∃ e rest, List.lookup "imdata" m = some (Json.arr (Json.obj e :: rest)) ∧
        noTruthyTokenB e = true) :
    (mainRun stdin oracle now).exitCode = 1 ∧
    (mainRun stdin oracle now).queryCall = none ∧
    List.lookup "status" (mainRun stdin oracle now).output = some "error" ∧
    List.lookup "error_message" (mainRun stdin oracle now).output =
      some "Authentication failed - no token received" := by
  set ur : String := ⟨((u.data.reverse.dropWhile (fun c => c = '/')).reverse)⟩ with hur
  have hcore := mainCore_reach_auth input oracle now u ur uv pv apv tv qp t
    h1 (by rfl) h2 h3 h4 htv ht hqp
  have hauth := authenticate_aci_no_token oracle.login lr ur uv pv t (Json.obj m)
    hlogin hls hlb (extractToken_none m hshape)
  rw [mainRun_eq_some stdin (Json.obj input) oracle now hstdin, hcore, hauth]
  exact ⟨rfl, rfl, rfl, rfl⟩

theorem c5_no_token_witness :
    (mainRun okStdin emptyImdataOracle 0).exitCode = 1 ∧
    (mainRun okStdin emptyImdataOracle 0).queryCall = none ∧
    List.lookup "error_message" (mainRun okStdin emptyImdataOracle 0).output =
      some "Authentication failed - no token received" := by
  have h := c5_no_token okStdin okInput emptyImdataOracle 0
    "https://a" (Json.str "u") (Json.str "p") (Json.str "x")
    (Json.int 30) (Json.obj []) 30 { status := 200, body := emptyImdataBody }
    [("imdata", Json.arr [])]
    (by rfl) (by rfl) (by rfl) (by rfl) (by rfl) (by rfl) (by rfl) (by rfl) (by rfl)
    (by decide) (by rfl) (Or.inr (Or.inl (by rfl)))
  exact ⟨h.1, h.2.1, h.2.2.2⟩

theorem mainCore_query_step (input : List (String × Json)) (oracle : NetOracle) (now : Int)
    (u ur : String) (uv pv apv tv qp : Json) (t : Int)
    (session : Session) (lrec : CallRecord)
    (h1 : List.lookup "apic_url" input = some (Json.str u))
    (hr : pyRstrip (Json.str u) '/' = .ok ur)
    (h2 : List.lookup "username" input = some uv)
    (h3 : List.lookup "password" input = some pv)
    (h4 : List.lookup "api_path" input = some apv)
    (htv : pyGetMethod (Json.obj input) "timeout" (Json.int 30) = .ok tv)
    (ht : pyInt tv = .ok t)
    (hqp : pyGetMethod (Json.obj input) "query_params" (Json.obj []) = .ok qp)
    (hauth : authenticate_aci oracle.login ur uv pv t = (.ok session, lrec)) :
    mainCore (Json.obj input) oracle now =
      (match query_aci_api oracle.query session ur apv qp with
       | (.error e, qrec) => (.error e, some lrec, qrec)
       | (.ok result, qrec) =>
         match successFields result now with
         | .error e => (.error (.py e), some lrec, qrec)
         | .ok fs => (.ok fs, some lrec, qrec)) := by
  rw [mainCore_reach_auth input oracle now u ur uv pv apv tv qp t h1 hr h2 h3 h4 htv ht hqp,
    hauth]

/-- C9: a 2xx response whose body is not valid JSON yields the stage's
invalid-JSON message — "Invalid JSON response during authentication: ..."
when it is the login response, "Invalid JSON response from API: ..." when it
is the query response — in the emitted error envelope with exit code 1, and
these messages do not begin with the respective stage's request-failed
prefix. -/
theorem c9_invalid_json_messages (stdin : String) (input : List (String × Json))
    (oracle : NetOracle) (now : Int) (u : String) (uv pv apv tv qp : Json) (t : Int)
    (hstdin : Json.parse stdin = some (Json.obj input))
    (h1 : List.lookup "apic_url" input = some (Json.str u))
    (h2 : List.lookup "username" input = some uv)
    (h3 : List.lookup "password" input = some pv)
    (h4 : List.lookup "api_path" input = some apv)
    (htv : pyGetMethod (Json.obj input) "timeout" (Json.int 30) = .ok tv)
    (ht : pyInt tv = .ok t)
    (hqp : pyGetMethod (Json.obj input) "query_params" (Json.obj []) = .ok qp) :
    (∀ lr : HttpResp, oracle.login = .resp lr → lr.status < 400 →
      Json.parse lr.body = none →
      List.lookup "error_message" (mainRun stdin oracle now).output =
        some ("Invalid JSON response during authentication: " ++ jsonDecodeDetail) ∧
      (mainRun stdin oracle now).exitCode = 1) ∧
    (∀ (lr qr : HttpResp) (loginJson tok : Json) (ap : String),
      oracle.login = .resp lr → lr.status < 400 →
      Json.parse lr.body = some loginJson → extractToken loginJson = .ok (some tok) →
      apv = Json.str ap →
      oracle.query = .resp qr → qr.status < 400 →
      Json.parse qr.body = none →
      List.lookup "error_message" (mainRun stdin oracle now).output =
        some ("Invalid JSON response from API: " ++ jsonDecodeDetail) ∧
      (mainRun stdin oracle now).exitCode = 1) ∧
    strStartsWith ("Invalid JSON response during authentication: " ++ jsonDecodeDetail)
      "Invalid JSON response during authentication:" = true ∧
    strStartsWith ("Invalid JSON response during authentication: " ++ jsonDecodeDetail)
      "Authentication request failed:" = false ∧
    strStartsWith ("Invalid JSON response from API: " ++ jsonDecodeDetail)
      "Invalid JSON response from API:" = true ∧
    strStartsWith ("Invalid JSON response from API: " ++ jsonDecodeDetail)
      "API query failed:" = false := by
  set ur : String := ⟨((u.data.reverse.dropWhile (fun c => c = '/')).reverse)⟩ with hur
  refine ⟨?_, ?_, by decide, by decide, by decide, by decide⟩
  · intro lr hlr hls hlb
    rw [mainRun_eq_some stdin (Json.obj input) oracle now hstdin,
      mainCore_reach_auth input oracle now u ur uv pv apv tv qp t h1 (by rfl) h2 h3 h4 htv ht hqp,
      authenticate_aci_invalid_json oracle.login lr ur uv pv t hlr hls hlb]
    exact ⟨rfl, rfl⟩
  · intro lr qr loginJson tok ap hlr hls hlb hex hap hqr hqs hqb
    subst hap
    rw [mainRun_eq_some stdin (Json.obj input) oracle now hstdin,
      mainCore_query_step input oracle now u ur uv pv (Json.str ap) tv qp t _ _
        h1 (by rfl) h2 h3 h4 htv ht hqp
        (authenticate_aci_success oracle.login lr ur uv pv t loginJson tok hlr hls hlb hex),
      query_aci_api_invalid_json oracle.query qr _ ur ap qp hqr hqs hqb]
    exact ⟨rfl, rfl⟩

theorem c9_invalid_json_messages_witness :
    List.lookup "error_message" (mainRun okStdin invalidAuthOracle 0).output =
      some ("Invalid JSON response during authentication: " ++ jsonDecodeDetail) ∧
    List.lookup "error_message" (mainRun okStdin invalidQueryOracle 0).output =
      some ("Invalid JSON response from API: " ++ jsonDecodeDetail) := by
  refine ⟨((c9_invalid_json_messages okStdin okInput invalidAuthOracle 0 "https://a"
      (Json.str "u") (Json.str "p") (Json.str "x") (Json.int 30) (Json.obj []) 30
      (by rfl) (by rfl) (by rfl) (by rfl) (by rfl) (by rfl) (by rfl) (by rfl)).1
      { status := 200, body := "oops" } rfl (by decide) (by rfl)).1,
    ((c9_invalid_json_messages okStdin okInput invalidQueryOracle 0 "https://a"
      (Json.str "u") (Json.str "p") (Json.str "x") (Json.int 30) (Json.obj []) 30
      (by rfl) (by rfl) (by rfl) (by rfl) (by rfl) (by rfl) (by rfl) (by rfl)).2.1
      { status := 200, body := goodLoginBody } { status := 200, body := "oops" }
      goodLoginJson (Json.str "T") "x"
      rfl (by decide) (by rfl) (by rfl) rfl rfl (by decide) (by rfl)).1⟩

/-- C10: when the login response carries the attribute at the path
imdata[0].aaaLogin.attributes.token but its value is falsy (the empty
string, 0, false, null, an empty container), the `if token:` guard fails
and authentication ends with "Authentication failed - no token received",
exactly the outcome of an absent token attribute. -/
theorem c10_falsy_token (outcome : StageOutcome) (lr : HttpResp) (apic_url : String)
    (uv pv : Json) (t : Int) (m e a b : List (String × Json)) (rest : List Json)
    (tokv : Json)
    (hlogin : outcome = .resp lr) (hls : lr.status < 400)
    (hlb : Json.parse lr.body = some (Json.obj m))
    (him : List.lookup "imdata" m = some (Json.arr (Json.obj e :: rest)))
    (ha : List.lookup "aaaLogin" e = some (Json.obj a))
    (hb : List.lookup "attributes" a = some (Json.obj b))
    (htk : List.lookup "token" b = some tokv)
    (hfalsy : pyTruthy tokv = false) :
    (authenticate_aci outcome apic_url uv pv t).1 =
      .error (.aci "Authentication failed - no token received") := by
  have hnt : noTruthyTokenB e = true := by
    simp [noTruthyTokenB, ha, hb, htk, hfalsy]
  rw [authenticate_aci_no_token outcome lr apic_url uv pv t (Json.obj m) hlogin hls hlb
    (extractToken_none m (Or.inr (Or.inr ⟨e, rest, him, hnt⟩)))]

theorem c10_falsy_token_witness :
    (authenticate_aci (respOf 200 emptyTokenBody) "https://a"
        (Json.str "u") (Json.str "p") 30).1 =
      .error (.aci "Authentication failed - no token received") :=
  c10_falsy_token (respOf 200 emptyTokenBody) { status := 200, body := emptyTokenBody }
    "https://a" (Json.str "u") (Json.str "p") 30
    [("imdata", Json.arr [Json.obj [("aaaLogin",
      Json.obj [("attributes", Json.obj [("token", Json.str "")])])]])]
    [("aaaLogin", Json.obj [("attributes", Json.obj [("token", Json.str "")])])]
    [("attributes", Json.obj [("token", Json.str "")])]
    [("token", Json.str "")] [] (Json.str "")
    (by rfl) (by decide) (by rfl) (by rfl) (by rfl) (by rfl) (by rfl) (by rfl)

/-- C8: the session returned by a successful authentication does have
certificate verification disabled and does carry the Cookie:
APIC-cookie=<token> header, but the configured timeout is only stored as the
unused `session.timeout` attribute (the requests library reads no such
attribute): neither the login POST nor the query GET passes a timeout
argument, so the two network calls are not bounded by the configured
timeout. Concretely, with timeout 5 both recorded calls have
`timeoutArg = none` while `sessionTimeoutAttr = 5`. -/
theorem c8_timeout_unused :
    (mainRun timeout5Stdin okOracle 0).loginCall =
      some { url := "https://a/api/aaaLogin.json", timeoutArg := none, params := none,
             jsonBody := some (aaaLoginPayload (Json.str "u") (Json.str "p")),
             sessionTimeoutAttr := 5, verify := false, headers := [] } ∧
    (mainRun timeout5Stdin okOracle 0).queryCall =
      some { url := "https://a/api/x", timeoutArg := none, params := some (Json.obj []),
             jsonBody := none, sessionTimeoutAttr := 5, verify := false,
             headers := [("Cookie", "APIC-cookie=T")] } ∧
    (mainRun timeout5Stdin okOracle 0).exitCode = 0 :=
  ⟨rfl, rfl, rfl⟩
